import Mathlib

/-!
# multitouch.c: touch registry, touch state machine, compositor, event printer

A shallow embedding of `src/multitouch.c`.

* Coordinates are C `double`s.  The program only stores them, passes them on,
  forms `x - 15`, `x + 30`, `2 * M_PI` and converts them to `float` for printing;
  every definition is therefore generic in a type `F` carrying exactly those
  operations (`CDouble`).
* `uint32_t` values are `Nat` reduced modulo `2^32`; `int` values are `Int`, wrapped
  to 32 bits where the program does arithmetic on them.
* Calls into cairo and stdio are recorded, in program order, as a list of `Effect`s.
* An array access outside `touches[MAX_TOUCHES]` is undefined behaviour: the
  functions doing array accesses return `Option`, and `none` stands for it.
-/

namespace Multitouch

/-! ## Data model -/

/-- The macro MAX_TOUCHES. -/
def MAX_TOUCHES : Nat := 10

/-- The enum TouchState; TSTATE_END has value 0. -/
inductive TouchState where
  | TSTATE_END
  | TSTATE_BEGIN
  | TSTATE_UPDATE
deriving DecidableEq, Repr

/-- The struct touchpoint. -/
structure touchpoint (F : Type) where
  state : TouchState
  touchid : Nat
  x : F
  y : F
deriving DecidableEq, Repr

/-- The operations on C doubles that the program uses. -/
class CDouble (F : Type) extends Sub F, Add F, Mul F where
  /-- Conversion of an int to double. -/
  ofInt : Int → F
  /-- The literal .5 -/
  point5 : F
  /-- The constant M_PI of math.h -/
  M_PI : F
  /-- Conversion of a double to float, the result taken as a double again. -/
  toFloat : F → F

/-- The registry part of struct multitouch: the slot table and its length field.
The X11 handles and the window size are not read by the touch handlers; the cairo
contexts appear as the targets of the recorded calls. -/
structure multitouch (F : Type) where
  touches : List (touchpoint F)
  ntouches : Int
deriving DecidableEq, Repr

/-- The fields of XIDeviceEvent which the program reads. -/
structure XIDeviceEvent (F : Type) where
  evtype : Int
  detail : Int
  event_x : F
  event_y : F
  root_x : F
  root_y : F
deriving DecidableEq, Repr

/-- Event type XI_TouchBegin of XInput2 (XI2.h). -/
def XI_TouchBegin : Int := 18
/-- Event type XI_TouchUpdate of XInput2 (XI2.h). -/
def XI_TouchUpdate : Int := 19
/-- Event type XI_TouchEnd of XInput2 (XI2.h). -/
def XI_TouchEnd : Int := 20

/-- Conversion of an int to uint32_t. -/
def toUInt32 (z : Int) : Nat := (z % 4294967296).toNat

/-- Conversion to a 32 bit int, wrapping around (two's complement). -/
def toInt32 (z : Int) : Int := (z + 2147483648) % 4294967296 - 2147483648

/-! ## Recorded calls -/

/-- The three cairo contexts of struct multitouch: cr draws into the backbuffer
(Ink), cr_win into the window (Front), cr_grabs into the grab buffer (Overlay). -/
inductive Ctx where
  | cr
  | cr_win
  | cr_grabs
deriving DecidableEq, Repr

/-- The three cairo surfaces of struct multitouch. -/
inductive Surf where
  | surface
  | surface_win
  | surface_grabs
deriving DecidableEq, Repr

/-- The cairo calls the program makes, with their arguments. The offsets of
set_source_surface and mask_surface are the integer literals of the source. -/
inductive CairoOp (F : Type) where
  | save
  | restore
  | set_source_rgba (r g b a : F)
  | set_source_surface (s : Surf) (x y : Int)
  | arc (xc yc radius angle1 angle2 : F)
  | move_to (x y : F)
  | line_to (x y : F)
  | rectangle (x y width height : F)
  | stroke
  | paint
  | mask_surface (s : Surf) (x y : Int)
deriving DecidableEq, Repr

/-- One observable action of the program. -/
inductive Effect (F : Type) where
  | cairo (ctx : Ctx) (op : CairoOp F)
  | stderr (text : String)
  | printf (text : String)
  | print_coordinates_column (col : Int) (id : Int) (x y rx ry : F) (note : String)
  | fflush
deriving DecidableEq, Repr

variable {F : Type}

/-- The function error: writes the prefix and the formatted message to stderr. -/
def error (msg : String) : List (Effect F) :=
  [Effect.stderr "E: ", Effect.stderr msg]

/-! ## Compositor -/

/-- The function expose; the rectangle arguments are not used by the body. -/
def expose (_x1 _y1 _x2 _y2 : F) : List (Effect F) :=
  [ Effect.cairo Ctx.cr_win (CairoOp.set_source_surface Surf.surface 0 0),
    Effect.cairo Ctx.cr_win CairoOp.paint,
    Effect.cairo Ctx.cr_win CairoOp.save,
    Effect.cairo Ctx.cr_win (CairoOp.set_source_surface Surf.surface_grabs 0 0),
    Effect.cairo Ctx.cr_win (CairoOp.mask_surface Surf.surface_grabs 0 0),
    Effect.cairo Ctx.cr_win CairoOp.restore ]

/-! ## Touch registry and state machine -/

/-- The loop `for (i = start; i < start + k; i++) if (p touches[i]) leave with i`:
`some (some i)` when the loop is left at index i, `some none` when it runs to the
end, `none` when it reads outside the array. -/
def first_slot (p : touchpoint F → Bool) (touches : List (touchpoint F)) :
    Nat → Nat → Option (Option Nat)
  | 0, _ => some none
  | k + 1, i =>
    match touches[i]? with
    | none => none
    | some t => if p t then some (some i) else first_slot p touches k (i + 1)

/-- The condition tested by the loop of find_touch. -/
def matches_id (touchid : Nat) (t : touchpoint F) : Bool :=
  decide (t.state ≠ TouchState.TSTATE_END) && decide (t.touchid = touchid)

/-- The function find_touch; the returned pointer is the index of the slot. -/
def find_touch (mt : multitouch F) (touchid : Nat) : Option (Option Nat) :=
  first_slot (matches_id touchid) mt.touches mt.ntouches.toNat 0

/-- Assignment through a slot pointer: `none` when the index is outside the array. -/
def store (touches : List (touchpoint F)) (i : Nat) (f : touchpoint F → touchpoint F) :
    Option (List (touchpoint F)) :=
  match touches[i]? with
  | none => none
  | some t => some (touches.set i (f t))

/-- The cairo calls of paint_touch_begin after the slot has been written. -/
def begin_draw [CDouble F] (x y : F) : List (Effect F) :=
  let radius : Int := 30
  [ Effect.cairo Ctx.cr CairoOp.save,
    Effect.cairo Ctx.cr (CairoOp.set_source_rgba (CDouble.ofInt 0) (CDouble.ofInt 0)
      (CDouble.ofInt 0) CDouble.point5),
    Effect.cairo Ctx.cr (CairoOp.arc x y (CDouble.ofInt radius) (CDouble.ofInt 0)
      (CDouble.ofInt 2 * CDouble.M_PI)),
    Effect.cairo Ctx.cr CairoOp.stroke,
    Effect.cairo Ctx.cr CairoOp.restore ]
  ++ expose (x - CDouble.ofInt radius) (y - CDouble.ofInt radius)
       (x + CDouble.ofInt radius) (y + CDouble.ofInt radius)

/-- The function paint_touch_begin. -/
def paint_touch_begin [CDouble F] (mt : multitouch F) (event : XIDeviceEvent F) :
    Option (multitouch F × List (Effect F)) :=
  match first_slot (fun t => decide (t.state = TouchState.TSTATE_END))
      mt.touches mt.ntouches.toNat 0 with
  | none => none
  | some none => some (mt, error "Too many touchpoints, skipping\n")
  | some (some i) =>
    match store mt.touches i (fun t =>
        { t with touchid := toUInt32 event.detail, x := event.event_x, y := event.event_y,
                 state := TouchState.TSTATE_BEGIN }) with
    | none => none
    | some touches =>
      some ({ mt with touches := touches }, begin_draw event.event_x event.event_y)

/-- The cairo calls of paint_touch_update; (x0, y0) is the position read from the
slot before it is overwritten. -/
def update_draw (x0 y0 x y : F) [CDouble F] : List (Effect F) :=
  [ Effect.cairo Ctx.cr CairoOp.save,
    Effect.cairo Ctx.cr (CairoOp.set_source_rgba (CDouble.ofInt 0) (CDouble.ofInt 0)
      (CDouble.ofInt 0) CDouble.point5),
    Effect.cairo Ctx.cr (CairoOp.move_to x0 y0),
    Effect.cairo Ctx.cr (CairoOp.line_to x y),
    Effect.cairo Ctx.cr CairoOp.stroke,
    Effect.cairo Ctx.cr CairoOp.restore ]
  ++ expose x0 y0 x y

/-- The function paint_touch_update. -/
def paint_touch_update [CDouble F] (mt : multitouch F) (event : XIDeviceEvent F) :
    Option (multitouch F × List (Effect F)) :=
  match find_touch mt (toUInt32 event.detail) with
  | none => none
  | some none => some (mt, error "Could not find touch in paint_touch_update\n")
  | some (some i) =>
    match mt.touches[i]? with
    | none => none
    | some t0 =>
      match store mt.touches i (fun t =>
          { t with x := event.event_x, y := event.event_y,
                   state := TouchState.TSTATE_UPDATE }) with
      | none => none
      | some touches =>
        some ({ mt with touches := touches },
              update_draw t0.x t0.y event.event_x event.event_y)

/-- The cairo calls of paint_touch_end; (x, y) is the position just written to the
slot, and rsize / 2 is an integer division. -/
def end_draw [CDouble F] (x y : F) : List (Effect F) :=
  let rsize : Int := 30
  [ Effect.cairo Ctx.cr CairoOp.save,
    Effect.cairo Ctx.cr (CairoOp.set_source_rgba (CDouble.ofInt 0) (CDouble.ofInt 0)
      (CDouble.ofInt 0) CDouble.point5),
    Effect.cairo Ctx.cr (CairoOp.rectangle (x - CDouble.ofInt (rsize / 2))
      (y - CDouble.ofInt (rsize / 2)) (CDouble.ofInt rsize) (CDouble.ofInt rsize)),
    Effect.cairo Ctx.cr CairoOp.stroke,
    Effect.cairo Ctx.cr CairoOp.restore ]
  ++ expose (x - CDouble.ofInt (rsize / 2)) (y - CDouble.ofInt (rsize / 2))
       (x + CDouble.ofInt (rsize / 2)) (y + CDouble.ofInt (rsize / 2))

/-- The function paint_touch_end. -/
def paint_touch_end [CDouble F] (mt : multitouch F) (event : XIDeviceEvent F) :
    Option (multitouch F × List (Effect F)) :=
  match find_touch mt (toUInt32 event.detail) with
  | none => none
  | some none => some (mt, error "Could not find touch in paint_touch_end\n")
  | some (some i) =>
    match store mt.touches i (fun t =>
        { t with x := event.event_x, y := event.event_y,
                 state := TouchState.TSTATE_END }) with
    | none => none
    | some touches =>
      some ({ mt with touches := touches }, end_draw event.event_x event.event_y)

/-- The function paint_event: a switch without default case. -/
def paint_event [CDouble F] (mt : multitouch F) (event : XIDeviceEvent F) :
    Option (multitouch F × List (Effect F)) :=
  if event.evtype = XI_TouchBegin then paint_touch_begin mt event
  else if event.evtype = XI_TouchUpdate then paint_touch_update mt event
  else if event.evtype = XI_TouchEnd then paint_touch_end mt event
  else some (mt, [])

/-- The calls of paint_event made by the loop of main for a queue of events, in
order; the effects are concatenated. -/
def paint_events [CDouble F] (mt : multitouch F) :
    List (XIDeviceEvent F) → Option (multitouch F × List (Effect F))
  | [] => some (mt, [])
  | e :: es =>
    match paint_event mt e with
    | none => none
    | some (mt1, out1) =>
      match paint_events mt1 es with
      | none => none
      | some (mt2, out2) => some (mt2, out1 ++ out2)

/-- The registry after `memset(&mt, 0, sizeof(mt)); mt.ntouches = MAX_TOUCHES;` in
main: every slot has state 0 (TSTATE_END), touchid 0 and position (0, 0). -/
def init_registry [CDouble F] : multitouch F :=
  { touches := List.replicate MAX_TOUCHES
      { state := TouchState.TSTATE_END, touchid := 0,
        x := CDouble.ofInt 0, y := CDouble.ofInt 0 },
    ntouches := MAX_TOUCHES }

/-- Symbolic double expressions: the free instance of CDouble, used to evaluate the
definitions on concrete inputs without fixing a floating point semantics. -/
inductive DExpr where
  | ofInt (n : Int)
  | point5
  | M_PI
  | sub (a b : DExpr)
  | add (a b : DExpr)
  | mul (a b : DExpr)
  | toFloat (a : DExpr)
deriving DecidableEq, Repr

instance : CDouble DExpr where
  sub := DExpr.sub
  add := DExpr.add
  mul := DExpr.mul
  ofInt := DExpr.ofInt
  point5 := DExpr.point5
  M_PI := DExpr.M_PI
  toFloat := DExpr.toFloat

/-- A touch event with the given type, identifier and window position. -/
def mkEvent (evtype detail : Int) (x y : F) : XIDeviceEvent F :=
  { evtype := evtype, detail := detail, event_x := x, event_y := y, root_x := x, root_y := y }

/-! ## Predicates used in the statements -/

/-- A slot is Active when its state is not TSTATE_END. -/
def Active (t : touchpoint F) : Prop := t.state ≠ TouchState.TSTATE_END

instance (t : touchpoint F) : Decidable (Active t) := by
  unfold Active; infer_instance

/-- The registries the program works on: the array has MAX_TOUCHES slots and
ntouches is MAX_TOUCHES, as main sets it and no function changes it. -/
def WF (mt : multitouch F) : Prop :=
  mt.touches.length = MAX_TOUCHES ∧ mt.ntouches = (MAX_TOUCHES : Int)

instance (mt : multitouch F) : Decidable (WF mt) := by
  unfold WF; infer_instance

/-- The cairo calls made on one context, in order. -/
def cairo_calls (c : Ctx) (out : List (Effect F)) : List (CairoOp F) :=
  out.filterMap (fun e =>
    match e with
    | Effect.cairo c1 op => if c1 = c then some op else none
    | _ => none)

/-- The contexts on which cairo_stroke is called, in order. -/
def stroke_contexts (out : List (Effect F)) : List Ctx :=
  out.filterMap (fun e =>
    match e with
    | Effect.cairo c CairoOp.stroke => some c
    | _ => none)

/-- An event is accepted when it is a begin and the table has a free slot, or an
update or end and find_touch returns a slot. -/
def Accepted (mt : multitouch F) (event : XIDeviceEvent F) : Prop :=
  (event.evtype = XI_TouchBegin ∧ ∃ t ∈ mt.touches, t.state = TouchState.TSTATE_END) ∨
  ((event.evtype = XI_TouchUpdate ∨ event.evtype = XI_TouchEnd) ∧
    ∃ i, find_touch mt (toUInt32 event.detail) = some (some i))

/-- The slot written by paint_touch_begin. -/
def begin_slot (event : XIDeviceEvent F) : touchpoint F :=
  { state := TouchState.TSTATE_BEGIN, touchid := toUInt32 event.detail,
    x := event.event_x, y := event.event_y }

/-- The slot as paint_touch_update leaves it. -/
def update_slot (t : touchpoint F) (event : XIDeviceEvent F) : touchpoint F :=
  { t with x := event.event_x, y := event.event_y, state := TouchState.TSTATE_UPDATE }

/-- The slot as paint_touch_end leaves it. -/
def end_slot (t : touchpoint F) (event : XIDeviceEvent F) : touchpoint F :=
  { t with x := event.event_x, y := event.event_y, state := TouchState.TSTATE_END }

/-- The registry holding one touch, identifier 5 at (100, 100), in slot 0 in state
TSTATE_BEGIN: the table after the single event begin(5, 100, 100). -/
def one_touch_registry : multitouch DExpr :=
  { touches := begin_slot (mkEvent XI_TouchBegin 5 (DExpr.ofInt 100) (DExpr.ofInt 100))
      :: List.replicate 9 { state := TouchState.TSTATE_END, touchid := 0,
                            x := DExpr.ofInt 0, y := DExpr.ofInt 0 },
    ntouches := 10 }

/-- The registry changes which one call of paint_event can make. -/
inductive Transition (mt : multitouch F) (event : XIDeviceEvent F) : multitouch F → Prop where
  | dropped : event.evtype = XI_TouchBegin →
      (∀ (j : Nat) (t : touchpoint F), mt.touches[j]? = some t → Active t) →
      Transition mt event mt
  | allocated (i : Nat) (t0 : touchpoint F) : event.evtype = XI_TouchBegin →
      mt.touches[i]? = some t0 → t0.state = TouchState.TSTATE_END →
      Transition mt event { mt with touches := mt.touches.set i (begin_slot event) }
  | missing : (event.evtype = XI_TouchUpdate ∨ event.evtype = XI_TouchEnd) →
      (∀ (j : Nat) (t : touchpoint F), mt.touches[j]? = some t →
        ¬ (Active t ∧ t.touchid = toUInt32 event.detail)) →
      Transition mt event mt
  | updated (i : Nat) (t : touchpoint F) : event.evtype = XI_TouchUpdate →
      mt.touches[i]? = some t → Active t → t.touchid = toUInt32 event.detail →
      Transition mt event { mt with touches := mt.touches.set i (update_slot t event) }
  | ended (i : Nat) (t : touchpoint F) : event.evtype = XI_TouchEnd →
      mt.touches[i]? = some t → Active t → t.touchid = toUInt32 event.detail →
      Transition mt event { mt with touches := mt.touches.set i (end_slot t event) }
  | ignored : event.evtype ≠ XI_TouchBegin → event.evtype ≠ XI_TouchUpdate →
      event.evtype ≠ XI_TouchEnd → Transition mt event mt

/-- A run of paint_event calls from mt over the events in which every event
satisfies the condition Q in the registry it is delivered to. -/
def run_ok [CDouble F] (Q : multitouch F → XIDeviceEvent F → Prop) :
    multitouch F → List (XIDeviceEvent F) → Prop
  | _, [] => True
  | mt, e :: es =>
    Q mt e ∧ ∀ mt1 out, paint_event mt e = some (mt1, out) → run_ok Q mt1 es

/-- No two Active slots carry the same touchid. -/
def Unique (mt : multitouch F) : Prop :=
  ∀ (i j : Nat) (ti tj : touchpoint F), mt.touches[i]? = some ti → mt.touches[j]? = some tj →
    Active ti → Active tj → ti.touchid = tj.touchid → i = j

/-- Identifiers are unique while active: no begin event is delivered for an
identifier which find_touch finds in the registry the event is delivered to. -/
def unique_while_active [CDouble F] : multitouch F → List (XIDeviceEvent F) → Bool
  | _, [] => true
  | mt, e :: es =>
    (decide (e.evtype = XI_TouchBegin → find_touch mt (toUInt32 e.detail) = some none)) &&
    (match paint_event mt e with
     | some (mt1, _) => unique_while_active mt1 es
     | none => false)

/-- The event is a begin or an update for the identifier. -/
def positions_id (touchid : Nat) (e : XIDeviceEvent F) : Bool :=
  (decide (e.evtype = XI_TouchBegin) || decide (e.evtype = XI_TouchUpdate)) &&
    decide (toUInt32 e.detail = touchid)

/-- The coordinates of the most recent begin or update event for the identifier. -/
def last_position (evs : List (XIDeviceEvent F)) (touchid : Nat) : Option (F × F) :=
  match evs.reverse.find? (positions_id touchid) with
  | some e => some (e.event_x, e.event_y)
  | none => none

/-- Every Active slot holds the coordinates of the most recent begin or update
event of the history for its identifier. -/
def Tracked (hist : List (XIDeviceEvent F)) (mt : multitouch F) : Prop :=
  ∀ (j : Nat) (t : touchpoint F), mt.touches[j]? = some t → Active t →
    last_position hist t.touchid = some (t.x, t.y)

/-- The number of Active slots of the registry. -/
def active_count (mt : multitouch F) : Nat :=
  (mt.touches.filter (fun t => decide (Active t))).length

/-- Every Active slot carries the identifier of some begin event of the history. -/
def Begun (hist : List (XIDeviceEvent F)) (mt : multitouch F) : Prop :=
  ∀ (j : Nat) (t : touchpoint F), mt.touches[j]? = some t → Active t →
    ∃ e ∈ hist, e.evtype = XI_TouchBegin ∧ toUInt32 e.detail = t.touchid

/-- A registry whose 10 slots are all Active, with identifiers 1 to 10. -/
def full_registry : multitouch DExpr :=
  { touches := (List.range 10).map (fun n =>
      { state := TouchState.TSTATE_UPDATE, touchid := n + 1,
        x := DExpr.ofInt 7, y := DExpr.ofInt 8 }),
    ntouches := 10 }

/-! ## Meaning of the cairo calls made on the window context

cairo is an external library. The calls which expose makes are given the meaning
the cairo documentation gives them for the default operator CAIRO_OPERATOR_OVER on
premultiplied pixels. Channel values are exact fractions; the rounding of 8 bit
channels is not modelled. -/

/-- One pixel: premultiplied red, green, blue and alpha. -/
structure Pixel where
  r : ℚ
  g : ℚ
  b : ℚ
  a : ℚ
deriving DecidableEq

/-- The content of a surface: one pixel per integer position. -/
abbrev Surface := Int → Int → Pixel

/-- The operator OVER: the source pixel s drawn over the destination pixel d. -/
def over (s d : Pixel) : Pixel :=
  { r := s.r + (1 - s.a) * d.r,
    g := s.g + (1 - s.a) * d.g,
    b := s.b + (1 - s.a) * d.b,
    a := s.a + (1 - s.a) * d.a }

/-- The source pixel s weighted by the mask alpha m. -/
def masked (m : ℚ) (s : Pixel) : Pixel :=
  { r := m * s.r, g := m * s.g, b := m * s.b, a := m * s.a }

/-- The window context cr_win: the content of its target (Front), its current
source pattern, and the sources saved by cairo_save. -/
structure WinContext where
  target : Surface
  source : Surface
  saved : List Surface

/-- The target after cairo_paint: the current source drawn over the target. -/
def paint_target (c : WinContext) : Surface :=
  fun i j => over (c.source i j) (c.target i j)

/-- The target after cairo_mask_surface with the mask surface placed at (x, y): the
current source, weighted by the alpha of the mask, drawn over the target. -/
def mask_target (mask : Surface) (x y : Int) (c : WinContext) : Surface :=
  fun i j => over (masked (mask (i - x) (j - y)).a (c.source i j)) (c.target i j)

/-- One cairo call on cr_win, given the contents of Ink (surface) and Overlay
(surface_grabs); `none` for the calls the program never makes on cr_win. -/
def cairo_win_call (ink overlay : Surface) (c : WinContext) : CairoOp F → Option WinContext
  | CairoOp.set_source_surface Surf.surface x y =>
    some { c with source := fun i j => ink (i - x) (j - y) }
  | CairoOp.set_source_surface Surf.surface_grabs x y =>
    some { c with source := fun i j => overlay (i - x) (j - y) }
  | CairoOp.paint => some { c with target := paint_target c }
  | CairoOp.mask_surface Surf.surface_grabs x y =>
    some { c with target := mask_target overlay x y c }
  | CairoOp.save => some { c with saved := c.source :: c.saved }
  | CairoOp.restore =>
    match c.saved with
    | [] => none
    | s :: rest => some { c with source := s, saved := rest }
  | _ => none

/-- The effect of a list of recorded calls on the window context while Ink and
Overlay keep their contents: calls on cr_win are applied in order, output to
stdio is skipped, and a call that draws into Ink or Overlay gives `none`. -/
def cairo_win_run (ink overlay : Surface) (c : WinContext) : List (Effect F) → Option WinContext
  | [] => some c
  | Effect.cairo Ctx.cr_win op :: rest =>
    match cairo_win_call ink overlay c op with
    | none => none
    | some c1 => cairo_win_run ink overlay c1 rest
  | Effect.cairo _ _ :: _ => none
  | _ :: rest => cairo_win_run ink overlay c rest

/-- A surface is opaque when every pixel has alpha 1. -/
def Solid (s : Surface) : Prop := ∀ i j, (s i j).a = 1

/-- The surface filled with one pixel value. -/
def fill (p : Pixel) : Surface := fun _ _ => p

/-- The opaque grey pixel (.85, .85, .85) with which init_cairo fills the Ink surface. -/
def grey_px : Pixel := { r := 85 / 100, g := 85 / 100, b := 85 / 100, a := 1 }

/-! ## Meaning of the cairo calls made on the Ink context

The rasteriser of cairo is not modelled: the coverage of a stroked path at a pixel
(`raster`) and the pixel of an rgba source (`colour`) are parameters, and every
statement holds for all of them. -/

/-- The Ink context cr: the content of its target (the backbuffer), its current
source, the sources saved by cairo_save, and the current path as the list of the
path calls made since the last stroke. -/
structure InkContext (F : Type) where
  target : Surface
  source : Pixel
  saved : List Pixel
  path : List (CairoOp F)

/-- The target after cairo_stroke: the current source, weighted by the coverage of
the stroked path, drawn over the target. -/
def stroke_target (raster : List (CairoOp F) → Int → Int → ℚ) (c : InkContext F) : Surface :=
  fun i j => over (masked (raster c.path i j) c.source) (c.target i j)

/-- One cairo call on cr; `none` for the calls the program never makes on cr. -/
def cairo_ink_call (raster : List (CairoOp F) → Int → Int → ℚ)
    (colour : F → F → F → F → Pixel) (c : InkContext F) : CairoOp F → Option (InkContext F)
  | CairoOp.save => some { c with saved := c.source :: c.saved }
  | CairoOp.restore =>
    match c.saved with
    | [] => none
    | s :: rest => some { c with source := s, saved := rest }
  | CairoOp.set_source_rgba r g b a => some { c with source := colour r g b a }
  | CairoOp.arc xc yc radius a1 a2 =>
    some { c with path := c.path ++ [CairoOp.arc xc yc radius a1 a2] }
  | CairoOp.move_to x y => some { c with path := c.path ++ [CairoOp.move_to x y] }
  | CairoOp.line_to x y => some { c with path := c.path ++ [CairoOp.line_to x y] }
  | CairoOp.rectangle x y w h => some { c with path := c.path ++ [CairoOp.rectangle x y w h] }
  | CairoOp.stroke => some { c with target := stroke_target raster c, path := [] }
  | _ => none

/-- The effect of a list of recorded calls on the Ink context: calls on cr are
applied in order; calls on the other two contexts and output to stdio do not draw
into Ink and are skipped. -/
def cairo_ink_run (raster : List (CairoOp F) → Int → Int → ℚ)
    (colour : F → F → F → F → Pixel) (c : InkContext F) :
    List (Effect F) → Option (InkContext F)
  | [] => some c
  | Effect.cairo Ctx.cr op :: rest =>
    match cairo_ink_call raster colour c op with
    | none => none
    | some c1 => cairo_ink_run raster colour c1 rest
  | _ :: rest => cairo_ink_run raster colour c rest

/-- The Ink context as init_cairo leaves it: the whole backbuffer filled with
opaque grey (the rectangle (0, 0, width, height) is the whole surface), the path
consumed by cairo_fill, nothing saved. The fill is made with grey as source; the
source is set again before every stroke, so it plays no part afterwards. -/
def init_ink : InkContext F :=
  { target := fill grey_px, source := grey_px, saved := [], path := [] }

/-! ## The event printer -/

/-- The two static variables of print_event. -/
structure print_state where
  minTouchID : Nat
  active_touches : Int
deriving DecidableEq, Repr

/-- The call of print_coordinates_column made by print_event: the column is
`event->detail - minTouchID`, computed in unsigned arithmetic and converted to int;
the four coordinates are converted from double to float, the parameter type. -/
def print_column [CDouble F] (minTouchID : Nat) (event : XIDeviceEvent F) (note : String) :
    Effect F :=
  Effect.print_coordinates_column (toInt32 ((toUInt32 event.detail : Int) - (minTouchID : Int)))
    event.detail (CDouble.toFloat event.event_x) (CDouble.toFloat event.event_y)
    (CDouble.toFloat event.root_x) (CDouble.toFloat event.root_y) note

/-- The function print_event; the increment and the decrement of the int counter
wrap around at 32 bits. -/
def print_event [CDouble F] (s : print_state) (event : XIDeviceEvent F) :
    print_state × List (Effect F) :=
  if event.evtype = XI_TouchBegin then
    let minTouchID := if s.minTouchID = 0 then toUInt32 event.detail else s.minTouchID
    ({ minTouchID := minTouchID, active_touches := toInt32 (s.active_touches + 1) },
     [print_column minTouchID event "begin", Effect.fflush])
  else if event.evtype = XI_TouchUpdate then
    (s, (if toUInt32 event.detail = s.minTouchID then [Effect.printf "\n"] else [])
        ++ [print_column s.minTouchID event "", Effect.fflush])
  else if event.evtype = XI_TouchEnd then
    let decremented := toInt32 (s.active_touches - 1)
    let active_touches := if decremented < 0 then 0 else decremented
    ({ minTouchID := if active_touches = 0 then 0 else s.minTouchID,
       active_touches := active_touches },
     [print_column s.minTouchID event "end"]
       ++ (if decremented < 0
           then [Effect.printf "ERROR: received more TouchEnd than TouchBegin"] else [])
       ++ [Effect.fflush])
  else (s, [Effect.fflush])

/-- The calls of print_event made by the loop of main for a queue of events. -/
def print_events [CDouble F] (s : print_state) :
    List (XIDeviceEvent F) → print_state × List (Effect F)
  | [] => (s, [])
  | e :: es =>
    let r1 := print_event s e
    let r2 := print_events r1.1 es
    (r2.1, r1.2 ++ r2.2)

/-- The static variables at program start. -/
def print_init : print_state := { minTouchID := 0, active_touches := 0 }

/-- The number of TouchBegin events in a list of events. -/
def begin_count (evs : List (XIDeviceEvent F)) : Nat :=
  (evs.filter (fun e => decide (e.evtype = XI_TouchBegin))).length

/-! ## The registry contract of the spec -/

/-- The registry contract in the words of the spec (allocate and release on a table
of fixed capacity): a begin makes its identifier live when fewer than MAX_TOUCHES
identifiers are live and is dropped otherwise, an end makes its identifier not
live, every other event leaves the live identifiers as they are. -/
def spec_live_step (live : List Nat) (e : XIDeviceEvent F) : List Nat :=
  if e.evtype = XI_TouchBegin then
    if live.length < MAX_TOUCHES then live ++ [toUInt32 e.detail] else live
  else if e.evtype = XI_TouchEnd then live.erase (toUInt32 e.detail)
  else live

/-- The identifiers that are live, by the contract of the spec, after the events. -/
def spec_live_ids (evs : List (XIDeviceEvent F)) : List Nat :=
  evs.foldl spec_live_step []

/-- The Active slots of the registry carry exactly the live identifiers, each once. -/
def Live (hist : List (XIDeviceEvent F)) (mt : multitouch F) : Prop :=
  (∀ touchid : Nat, (∃ (j : Nat) (t : touchpoint F), mt.touches[j]? = some t ∧ Active t ∧
      t.touchid = touchid) ↔ touchid ∈ spec_live_ids hist) ∧
  (spec_live_ids hist).Nodup ∧
  active_count mt = (spec_live_ids hist).length

/-- The run begin(5, 100, 100), update(5, 120, 110), begin(7, 10, 20),
end(5, 130, 120), update(7, 11, 21). -/
def sample_run : List (XIDeviceEvent DExpr) :=
  [mkEvent XI_TouchBegin 5 (DExpr.ofInt 100) (DExpr.ofInt 100),
   mkEvent XI_TouchUpdate 5 (DExpr.ofInt 120) (DExpr.ofInt 110),
   mkEvent XI_TouchBegin 7 (DExpr.ofInt 10) (DExpr.ofInt 20),
   mkEvent XI_TouchEnd 5 (DExpr.ofInt 130) (DExpr.ofInt 120),
   mkEvent XI_TouchUpdate 7 (DExpr.ofInt 11) (DExpr.ofInt 21)]

/-! ## The slot search loop -/

theorem first_slot_total (p : touchpoint F → Bool) (touches : List (touchpoint F)) :
    ∀ k i, i + k ≤ touches.length → ∃ r, first_slot p touches k i = some r := by
  intro k
  induction k with
  | zero => intro i _; exact ⟨none, rfl⟩
  | succ k ih =>
    intro i h
    have hi : i < touches.length := by omega
    simp only [first_slot, List.getElem?_eq_getElem hi]
    by_cases hp : p touches[i] = true
    · exact ⟨some i, by simp [hp]⟩
    · obtain ⟨r, hr⟩ := ih (i + 1) (by omega)
      exact ⟨r, by simp [hp, hr]⟩

theorem first_slot_found (p : touchpoint F → Bool) (touches : List (touchpoint F)) :
    ∀ k i m, first_slot p touches k i = some (some m) →
      i ≤ m ∧ m < i + k ∧ (∃ t, touches[m]? = some t ∧ p t = true) ∧
      ∀ j t, i ≤ j → j < m → touches[j]? = some t → p t = false := by
  intro k
  induction k with
  | zero => intro i m h; simp [first_slot] at h
  | succ k ih =>
    intro i m h
    unfold first_slot at h
    cases hget : touches[i]? with
    | none => simp [hget] at h
    | some t =>
      simp only [hget] at h
      by_cases hp : p t = true
      · simp only [hp, if_true, Option.some.injEq] at h
        subst h
        exact ⟨le_refl _, by omega, ⟨t, hget, hp⟩, fun j _ h1 h2 => by omega⟩
      · simp only [hp] at h
        obtain ⟨h1, h2, h3, h4⟩ := ih (i + 1) m h
        refine ⟨by omega, by omega, h3, ?_⟩
        intro j t' hij hjm hj
        by_cases hji : j = i
        · subst hji
          rw [hget] at hj
          cases hj
          simpa using hp
        · exact h4 j t' (by omega) hjm hj

theorem first_slot_absent (p : touchpoint F → Bool) (touches : List (touchpoint F)) :
    ∀ k i, first_slot p touches k i = some none →
      ∀ j t, i ≤ j → j < i + k → touches[j]? = some t → p t = false := by
  intro k
  induction k with
  | zero => intro i _ j t h1 h2; omega
  | succ k ih =>
    intro i h j t' hij hjk hj
    unfold first_slot at h
    cases hget : touches[i]? with
    | none => simp [hget] at h
    | some t =>
      simp only [hget] at h
      by_cases hp : p t = true
      · simp [hp] at h
      · simp only [hp] at h
        by_cases hji : j = i
        · subst hji
          rw [hget] at hj
          cases hj
          simpa using hp
        · exact ih (i + 1) h j t' (by omega) (by omega) hj

/-- On a well-formed registry the search over the whole table either finds the
lowest slot satisfying p or establishes that no slot satisfies p. -/
theorem first_slot_cases (p : touchpoint F → Bool) (mt : multitouch F) (h : WF mt) :
    (first_slot p mt.touches mt.ntouches.toNat 0 = some none ∧
        ∀ (j : Nat) (t : touchpoint F), mt.touches[j]? = some t → p t = false) ∨
    (∃ i t, first_slot p mt.touches mt.ntouches.toNat 0 = some (some i) ∧
        mt.touches[i]? = some t ∧ p t = true ∧
        ∀ j t1, j < i → mt.touches[j]? = some t1 → p t1 = false) := by
  obtain ⟨hlen, hn⟩ := h
  have hk : mt.ntouches.toNat = mt.touches.length := by
    rw [hn, hlen]; simp
  rw [hk]
  obtain ⟨r, hr⟩ := first_slot_total p mt.touches mt.touches.length 0 (by omega)
  cases r with
  | none =>
    left
    refine ⟨hr, ?_⟩
    intro j t hj
    have hlt : j < mt.touches.length := by
      by_contra hcon
      rw [List.getElem?_eq_none (by omega)] at hj
      cases hj
    exact first_slot_absent p mt.touches _ 0 hr j t (by omega) (by omega) hj
  | some i =>
    right
    obtain ⟨_, _, ⟨t, ht, hpt⟩, h4⟩ := first_slot_found p mt.touches _ 0 i hr
    exact ⟨i, t, hr, ht, hpt, fun j t1 hj hj1 => h4 j t1 (by omega) hj hj1⟩

/-- The search returns index i as soon as slot i satisfies p and no lower slot does. -/
theorem first_slot_lowest (p : touchpoint F → Bool) (mt : multitouch F) (h : WF mt)
    (i : Nat) (t : touchpoint F) (hi : mt.touches[i]? = some t) (hp : p t = true)
    (hlow : ∀ (j : Nat) (t1 : touchpoint F), j < i → mt.touches[j]? = some t1 → p t1 = false) :
    first_slot p mt.touches mt.ntouches.toNat 0 = some (some i) := by
  rcases first_slot_cases p mt h with ⟨_, hnone⟩ | ⟨k, tk, hk, hkt, hkp, hklow⟩
  · have := hnone i t hi
    rw [hp] at this
    cases this
  · rcases Nat.lt_trichotomy k i with hlt | heq | hgt
    · have := hlow k tk hlt hkt
      rw [hkp] at this
      cases this
    · rw [hk, heq]
    · have := hklow i t hgt hi
      rw [hp] at this
      cases this

theorem matches_id_true (touchid : Nat) (t : touchpoint F) :
    matches_id touchid t = true ↔ Active t ∧ t.touchid = touchid := by
  simp [matches_id, Active]

theorem matches_id_false (touchid : Nat) (t : touchpoint F) :
    matches_id touchid t = false ↔ ¬ (Active t ∧ t.touchid = touchid) := by
  rw [← matches_id_true]; simp

theorem find_touch_eq (mt : multitouch F) (touchid : Nat) :
    find_touch mt touchid = first_slot (matches_id touchid) mt.touches mt.ntouches.toNat 0 :=
  rfl

theorem begin_slot_eq (event : XIDeviceEvent F) (t : touchpoint F) :
    ({ t with touchid := toUInt32 event.detail, x := event.event_x, y := event.event_y,
              state := TouchState.TSTATE_BEGIN } : touchpoint F) = begin_slot event := rfl

/-- On a well-formed registry find_touch returns NULL exactly when no Active slot
carries the identifier, and otherwise the lowest Active slot carrying it. -/
theorem find_touch_cases (mt : multitouch F) (h : WF mt) (touchid : Nat) :
    (find_touch mt touchid = some none ∧
        ∀ (j : Nat) (t : touchpoint F), mt.touches[j]? = some t →
          ¬ (Active t ∧ t.touchid = touchid)) ∨
    (∃ i t, find_touch mt touchid = some (some i) ∧
        mt.touches[i]? = some t ∧ Active t ∧ t.touchid = touchid ∧
        ∀ (j : Nat) (t1 : touchpoint F), j < i → mt.touches[j]? = some t1 →
          ¬ (Active t1 ∧ t1.touchid = touchid)) := by
  rw [find_touch_eq]
  rcases first_slot_cases (matches_id touchid) mt h with ⟨h1, h2⟩ | ⟨i, t, h1, h2, h3, h4⟩
  · left
    exact ⟨h1, fun j t hj => (matches_id_false _ _).1 (h2 j t hj)⟩
  · right
    obtain ⟨ha, hid⟩ := (matches_id_true _ _).1 h3
    exact ⟨i, t, h1, h2, ha, hid, fun j t1 hj hj1 => (matches_id_false _ _).1 (h4 j t1 hj hj1)⟩

/-- When find_touch returns a slot, that slot is Active and carries the identifier. -/
theorem find_touch_slot (mt : multitouch F) (touchid i : Nat)
    (h : find_touch mt touchid = some (some i)) :
    ∃ t, mt.touches[i]? = some t ∧ Active t ∧ t.touchid = touchid ∧
      ∀ (j : Nat) (t1 : touchpoint F), j < i → mt.touches[j]? = some t1 →
        ¬ (Active t1 ∧ t1.touchid = touchid) := by
  rw [find_touch_eq] at h
  obtain ⟨_, _, ⟨t, ht, hp⟩, hlow⟩ := first_slot_found _ _ _ 0 i h
  obtain ⟨ha, hid⟩ := (matches_id_true _ _).1 hp
  exact ⟨t, ht, ha, hid, fun j t1 hj hj1 =>
    (matches_id_false _ _).1 (hlow j t1 (by omega) hj hj1)⟩

theorem store_eq (touches : List (touchpoint F)) (i : Nat) (f : touchpoint F → touchpoint F)
    (t : touchpoint F) (h : touches[i]? = some t) :
    store touches i f = some (touches.set i (f t)) := by
  simp [store, h]

/-! ## The three handlers on a well-formed registry -/

/-- Capacity branch: with no free slot the begin handler reports the error and
returns the registry as it was. -/
theorem paint_touch_begin_full [CDouble F] (mt : multitouch F) (h : WF mt)
    (hfull : ∀ (j : Nat) (t : touchpoint F), mt.touches[j]? = some t → Active t)
    (event : XIDeviceEvent F) :
    paint_touch_begin mt event = some (mt, error "Too many touchpoints, skipping\n") := by
  rcases first_slot_cases (fun t => decide (t.state = TouchState.TSTATE_END)) mt h with
    ⟨h1, _⟩ | ⟨i, t, _, h2, h3, _⟩
  · simp [paint_touch_begin, h1]
  · exact absurd (by simpa using h3) (hfull i t h2)

/-- Allocation branch: the begin handler overwrites the lowest free slot. -/
theorem paint_touch_begin_free [CDouble F] (mt : multitouch F) (h : WF mt)
    (i : Nat) (t0 : touchpoint F) (hi : mt.touches[i]? = some t0)
    (hfree : t0.state = TouchState.TSTATE_END)
    (hlow : ∀ (j : Nat) (t : touchpoint F), j < i → mt.touches[j]? = some t → Active t)
    (event : XIDeviceEvent F) :
    paint_touch_begin mt event =
      some ({ mt with touches := mt.touches.set i (begin_slot event) },
            begin_draw event.event_x event.event_y) := by
  have hs := first_slot_lowest (fun t => decide (t.state = TouchState.TSTATE_END)) mt h i t0 hi
    (by simpa using hfree)
    (fun j t hj hjt => by simpa using hlow j t hj hjt)
  simp [paint_touch_begin, hs, store_eq _ _ _ _ hi, begin_slot]

/-- Accepted update: the position of the found slot is overwritten and its state
set to TSTATE_UPDATE; the segment starts at the position read before. -/
theorem paint_touch_update_found [CDouble F] (mt : multitouch F) (event : XIDeviceEvent F)
    (i : Nat) (t : touchpoint F) (hfind : find_touch mt (toUInt32 event.detail) = some (some i))
    (hi : mt.touches[i]? = some t) :
    paint_touch_update mt event =
      some ({ mt with touches := mt.touches.set i (update_slot t event) },
            update_draw t.x t.y event.event_x event.event_y) := by
  simp [paint_touch_update, hfind, hi, store_eq _ _ _ _ hi, update_slot]

/-- Accepted end: the position of the found slot is overwritten and its state set
to TSTATE_END. -/
theorem paint_touch_end_found [CDouble F] (mt : multitouch F) (event : XIDeviceEvent F)
    (i : Nat) (t : touchpoint F) (hfind : find_touch mt (toUInt32 event.detail) = some (some i))
    (hi : mt.touches[i]? = some t) :
    paint_touch_end mt event =
      some ({ mt with touches := mt.touches.set i (end_slot t event) },
            end_draw event.event_x event.event_y) := by
  simp [paint_touch_end, hfind, store_eq _ _ _ _ hi, end_slot]

theorem paint_touch_update_missing [CDouble F] (mt : multitouch F) (event : XIDeviceEvent F)
    (hfind : find_touch mt (toUInt32 event.detail) = some none) :
    paint_touch_update mt event =
      some (mt, error "Could not find touch in paint_touch_update\n") := by
  simp [paint_touch_update, hfind]

theorem paint_touch_end_missing [CDouble F] (mt : multitouch F) (event : XIDeviceEvent F)
    (hfind : find_touch mt (toUInt32 event.detail) = some none) :
    paint_touch_end mt event =
      some (mt, error "Could not find touch in paint_touch_end\n") := by
  simp [paint_touch_end, hfind]

/-- With a free slot somewhere the begin handler allocates the lowest free slot. -/
theorem paint_touch_begin_alloc [CDouble F] (mt : multitouch F) (h : WF mt)
    (hfree : ∃ t ∈ mt.touches, t.state = TouchState.TSTATE_END) (event : XIDeviceEvent F) :
    ∃ i t0, mt.touches[i]? = some t0 ∧ t0.state = TouchState.TSTATE_END ∧
      (∀ (j : Nat) (t : touchpoint F), j < i → mt.touches[j]? = some t → Active t) ∧
      paint_touch_begin mt event =
        some ({ mt with touches := mt.touches.set i (begin_slot event) },
              begin_draw event.event_x event.event_y) := by
  obtain ⟨t, htmem, htfree⟩ := hfree
  obtain ⟨n, hn⟩ := List.mem_iff_getElem?.1 htmem
  rcases first_slot_cases (fun t => decide (t.state = TouchState.TSTATE_END)) mt h with
    ⟨_, hnone⟩ | ⟨i, t0, _, hi, hp, hlow⟩
  · have := hnone n t hn
    simp [htfree] at this
  · have hfree0 : t0.state = TouchState.TSTATE_END := by simpa using hp
    have hlow1 : ∀ (j : Nat) (t : touchpoint F), j < i → mt.touches[j]? = some t → Active t :=
      fun j t1 hj hjt => by simpa [Active] using hlow j t1 hj hjt
    exact ⟨i, t0, hi, hfree0, hlow1, paint_touch_begin_free mt h i t0 hi hfree0 hlow1 event⟩

theorem wf_set (mt : multitouch F) (h : WF mt) (i : Nat) (s : touchpoint F) :
    WF { mt with touches := mt.touches.set i s } := by
  obtain ⟨h1, h2⟩ := h
  exact ⟨by simp [h1], h2⟩

/-- One call of paint_event on a well-formed registry returns, keeps the registry
well-formed and changes it by one of the listed transitions. -/
theorem paint_event_step [CDouble F] (mt : multitouch F) (h : WF mt) (event : XIDeviceEvent F) :
    ∃ mt1 out, paint_event mt event = some (mt1, out) ∧ WF mt1 ∧ Transition mt event mt1 := by
  unfold paint_event
  by_cases hb : event.evtype = XI_TouchBegin
  · simp only [hb, if_true]
    by_cases hfree : ∃ t ∈ mt.touches, t.state = TouchState.TSTATE_END
    · obtain ⟨i, t0, hi, hfree0, _, hrun⟩ := paint_touch_begin_alloc mt h hfree event
      exact ⟨_, _, hrun, wf_set mt h _ _, Transition.allocated i t0 hb hi hfree0⟩
    · have hfull : ∀ (j : Nat) (t : touchpoint F), mt.touches[j]? = some t → Active t := by
        intro j t hj hend
        exact hfree ⟨t, List.getElem?_mem hj, hend⟩
      exact ⟨_, _, paint_touch_begin_full mt h hfull event, h, Transition.dropped hb hfull⟩
  · simp only [hb, if_false]
    by_cases hu : event.evtype = XI_TouchUpdate
    · simp only [hu, if_true]
      rcases find_touch_cases mt h (toUInt32 event.detail) with ⟨h1, h2⟩ | ⟨i, t, h1, h2, h3, h4, _⟩
      · exact ⟨_, _, paint_touch_update_missing mt event h1, h, Transition.missing (Or.inl hu) h2⟩
      · exact ⟨_, _, paint_touch_update_found mt event i t h1 h2, wf_set mt h _ _,
          Transition.updated i t hu h2 h3 h4⟩
    · simp only [hu, if_false]
      by_cases he : event.evtype = XI_TouchEnd
      · simp only [he, if_true]
        rcases find_touch_cases mt h (toUInt32 event.detail) with
          ⟨h1, h2⟩ | ⟨i, t, h1, h2, h3, h4, _⟩
        · exact ⟨_, _, paint_touch_end_missing mt event h1, h, Transition.missing (Or.inr he) h2⟩
        · exact ⟨_, _, paint_touch_end_found mt event i t h1 h2, wf_set mt h _ _,
            Transition.ended i t he h2 h3 h4⟩
      · simp only [he, if_false]
        exact ⟨mt, [], rfl, h, Transition.ignored hb hu he⟩

theorem init_registry_wf [CDouble F] : WF (init_registry : multitouch F) := by
  simp [WF, init_registry]

/-- Induction along a run of paint_event calls: a property of the history and the
registry which every transition preserves holds after the run, and the run returns. -/
theorem paint_events_induct [CDouble F] (Q : multitouch F → XIDeviceEvent F → Prop)
    (I : List (XIDeviceEvent F) → multitouch F → Prop)
    (hstep : ∀ hist mt e mt1, WF mt → I hist mt → Q mt e → Transition mt e mt1 →
      I (hist ++ [e]) mt1) :
    ∀ evs hist mt, WF mt → I hist mt → run_ok Q mt evs →
      ∃ mt1 out, paint_events mt evs = some (mt1, out) ∧ WF mt1 ∧ I (hist ++ evs) mt1 := by
  intro evs
  induction evs with
  | nil =>
    intro hist mt hwf hI _
    exact ⟨mt, [], rfl, hwf, by simpa using hI⟩
  | cons e es ih =>
    intro hist mt hwf hI hrun
    obtain ⟨hq, hrest⟩ := hrun
    obtain ⟨mt1, out1, h1, hwf1, htr⟩ := paint_event_step mt hwf e
    have hI1 := hstep hist mt e mt1 hwf hI hq htr
    obtain ⟨mt2, out2, h2, hwf2, hI2⟩ := ih (hist ++ [e]) mt1 hwf1 hI1 (hrest mt1 out1 h1)
    refine ⟨mt2, out1 ++ out2, ?_, hwf2, ?_⟩
    · simp [paint_events, h1, h2]
    · simpa using hI2

theorem run_ok_trivial [CDouble F] :
    ∀ (evs : List (XIDeviceEvent F)) (mt : multitouch F), run_ok (fun _ _ => True) mt evs := by
  intro evs
  induction evs with
  | nil => intro mt; trivial
  | cons e es ih => intro mt; exact ⟨trivial, fun mt1 _ _ => ih mt1⟩

theorem run_ok_of_unique_while_active [CDouble F] :
    ∀ (evs : List (XIDeviceEvent F)) (mt : multitouch F), unique_while_active mt evs = true →
      run_ok (fun mt e => e.evtype = XI_TouchBegin →
        find_touch mt (toUInt32 e.detail) = some none) mt evs := by
  intro evs
  induction evs with
  | nil => intro mt _; trivial
  | cons e es ih =>
    intro mt h
    simp only [unique_while_active, Bool.and_eq_true, decide_eq_true_eq] at h
    obtain ⟨hq, hrest⟩ := h
    refine ⟨hq, ?_⟩
    intro mt1 out h1
    rw [h1] at hrest
    exact ih mt1 hrest

theorem getElem?_set_cases (l : List (touchpoint F)) (i j : Nat) (a b : touchpoint F)
    (h : (l.set i a)[j]? = some b) : (j = i ∧ b = a) ∨ (j ≠ i ∧ l[j]? = some b) := by
  by_cases hji : j = i
  · left
    subst hji
    rw [List.getElem?_set_self'] at h
    cases hl : l[j]? with
    | none => simp [hl] at h
    | some c =>
      simp [hl] at h
      exact ⟨rfl, h.symm⟩
  · right
    rw [List.getElem?_set_ne (Ne.symm hji)] at h
    exact ⟨hji, h⟩

theorem find_touch_none (mt : multitouch F) (h : WF mt) (touchid : Nat)
    (hnone : find_touch mt touchid = some none) :
    ∀ (j : Nat) (t : touchpoint F), mt.touches[j]? = some t →
      ¬ (Active t ∧ t.touchid = touchid) := by
  rcases find_touch_cases mt h touchid with ⟨_, h2⟩ | ⟨i, t, h1, _⟩
  · exact h2
  · rw [hnone] at h1
    cases h1

theorem last_position_snoc (hist : List (XIDeviceEvent F)) (e : XIDeviceEvent F) (touchid : Nat) :
    last_position (hist ++ [e]) touchid =
      if positions_id touchid e = true then some (e.event_x, e.event_y)
      else last_position hist touchid := by
  unfold last_position
  rw [List.reverse_append]
  simp only [List.reverse_cons, List.reverse_nil, List.nil_append, List.singleton_append,
    List.find?_cons]
  by_cases hp : positions_id touchid e = true
  · simp [hp]
  · simp [hp]

theorem positions_id_begin (e : XIDeviceEvent F) (h : e.evtype = XI_TouchBegin) (touchid : Nat) :
    positions_id touchid e = decide (toUInt32 e.detail = touchid) := by
  simp [positions_id, h]

theorem positions_id_update (e : XIDeviceEvent F) (h : e.evtype = XI_TouchUpdate) (touchid : Nat) :
    positions_id touchid e = decide (toUInt32 e.detail = touchid) := by
  simp [positions_id, h]

theorem positions_id_other (e : XIDeviceEvent F) (hb : e.evtype ≠ XI_TouchBegin)
    (hu : e.evtype ≠ XI_TouchUpdate) (touchid : Nat) : positions_id touchid e = false := by
  simp [positions_id, hb, hu]

theorem positions_id_ne (e : XIDeviceEvent F) (touchid : Nat) (h : touchid ≠ toUInt32 e.detail) :
    positions_id touchid e = false := by
  simp [positions_id, Ne.symm h]

/-- Uniqueness of Active identifiers and position tracking are preserved by every
transition, provided a begin event is only delivered for an identifier that
find_touch does not find. -/
theorem tracking_step (hist : List (XIDeviceEvent F)) (mt : multitouch F)
    (e : XIDeviceEvent F) (mt1 : multitouch F) (hwf : WF mt)
    (hI : Unique mt ∧ Tracked hist mt)
    (hq : e.evtype = XI_TouchBegin → find_touch mt (toUInt32 e.detail) = some none)
    (htr : Transition mt e mt1) : Unique mt1 ∧ Tracked (hist ++ [e]) mt1 := by
  obtain ⟨hU, hT⟩ := hI
  cases htr with
  | dropped hb hfull =>
    refine ⟨hU, ?_⟩
    intro j t hj hact
    have hne := find_touch_none mt hwf _ (hq hb) j t hj
    have hid : t.touchid ≠ toUInt32 e.detail := fun h => hne ⟨hact, h⟩
    rw [last_position_snoc, positions_id_ne e _ hid]
    simpa using hT j t hj hact
  | allocated i t0 hb hi hfree =>
    have hnone := find_touch_none mt hwf _ (hq hb)
    constructor
    · intro a b ta tb ha hb1 hacta hactb hid
      rcases getElem?_set_cases _ _ _ _ _ ha with ⟨ha1, ha2⟩ | ⟨ha1, ha2⟩ <;>
        rcases getElem?_set_cases _ _ _ _ _ hb1 with ⟨hb2, hb3⟩ | ⟨hb2, hb3⟩
      · omega
      · exfalso
        subst ha2
        exact hnone b tb hb3 ⟨hactb, by rw [← hid]; rfl⟩
      · exfalso
        subst hb3
        exact hnone a ta ha2 ⟨hacta, by rw [hid]; rfl⟩
      · exact hU a b ta tb ha2 hb3 hacta hactb hid
    · intro j t hj hact
      rcases getElem?_set_cases _ _ _ _ _ hj with ⟨_, h2⟩ | ⟨_, h2⟩
      · subst h2
        rw [last_position_snoc, positions_id_begin e hb]
        simp [begin_slot]
      · have hid : t.touchid ≠ toUInt32 e.detail := fun h => hnone j t h2 ⟨hact, h⟩
        rw [last_position_snoc, positions_id_ne e _ hid]
        simpa using hT j t h2 hact
  | missing hty hnone =>
    refine ⟨hU, ?_⟩
    intro j t hj hact
    have hid : t.touchid ≠ toUInt32 e.detail := fun h => hnone j t hj ⟨hact, h⟩
    rw [last_position_snoc, positions_id_ne e _ hid]
    simpa using hT j t hj hact
  | updated i t hu hi hact hid =>
    constructor
    · intro a b ta tb ha hb1 hacta hactb hab
      rcases getElem?_set_cases _ _ _ _ _ ha with ⟨ha1, ha2⟩ | ⟨ha1, ha2⟩ <;>
        rcases getElem?_set_cases _ _ _ _ _ hb1 with ⟨hb2, hb3⟩ | ⟨hb2, hb3⟩
      · omega
      · subst ha2
        rw [ha1]
        exact hU i b t tb hi hb3 hact hactb hab
      · subst hb3
        rw [hb2]
        exact hU a i ta t ha2 hi hacta hact hab
      · exact hU a b ta tb ha2 hb3 hacta hactb hab
    · intro j tj hj hactj
      rcases getElem?_set_cases _ _ _ _ _ hj with ⟨_, h2⟩ | ⟨hji, h2⟩
      · subst h2
        rw [last_position_snoc, positions_id_update e hu]
        simp [update_slot, hid]
      · have hne : tj.touchid ≠ toUInt32 e.detail := by
          intro h
          exact hji (hU j i tj t h2 hi hactj hact (by rw [h, hid]))
        rw [last_position_snoc, positions_id_ne e _ hne]
        simpa using hT j tj h2 hactj
  | ended i t he hi hact hid =>
    have hb : e.evtype ≠ XI_TouchBegin := by rw [he]; decide
    have hu : e.evtype ≠ XI_TouchUpdate := by rw [he]; decide
    constructor
    · intro a b ta tb ha hb1 hacta hactb hab
      rcases getElem?_set_cases _ _ _ _ _ ha with ⟨ha1, ha2⟩ | ⟨ha1, ha2⟩ <;>
        rcases getElem?_set_cases _ _ _ _ _ hb1 with ⟨hb2, hb3⟩ | ⟨hb2, hb3⟩
      · omega
      · subst ha2
        exact absurd rfl hacta
      · subst hb3
        exact absurd rfl hactb
      · exact hU a b ta tb ha2 hb3 hacta hactb hab
    · intro j tj hj hactj
      rcases getElem?_set_cases _ _ _ _ _ hj with ⟨_, h2⟩ | ⟨hji, h2⟩
      · subst h2
        exact absurd rfl hactj
      · rw [last_position_snoc, positions_id_other e hb hu]
        simpa using hT j tj h2 hactj
  | ignored hb hu he =>
    refine ⟨hU, ?_⟩
    intro j t hj hact
    rw [last_position_snoc, positions_id_other e hb hu]
    simpa using hT j t hj hact

theorem init_registry_free [CDouble F] (j : Nat) (t : touchpoint F)
    (h : (init_registry : multitouch F).touches[j]? = some t) : ¬ Active t := by
  have hmem := List.getElem?_mem h
  simp only [init_registry] at hmem
  rw [List.eq_of_mem_replicate hmem]
  simp [Active]

theorem init_registry_unique [CDouble F] : Unique (init_registry : multitouch F) :=
  fun i _ ti _ hi _ hact _ _ => absurd hact (init_registry_free i ti hi)

theorem init_registry_tracked [CDouble F] : Tracked [] (init_registry : multitouch F) :=
  fun j t hj hact => absurd hact (init_registry_free j t hj)

/-- From the initial registry a run with identifiers unique while active returns
and ends in a well-formed registry with unique Active identifiers in which every
Active slot holds the most recent position reported for its identifier. -/
theorem tracking_invariant [CDouble F] (evs : List (XIDeviceEvent F))
    (h : unique_while_active (init_registry : multitouch F) evs = true) :
    ∃ mt out, paint_events (init_registry : multitouch F) evs = some (mt, out) ∧ WF mt ∧
      Unique mt ∧ Tracked evs mt := by
  have := paint_events_induct
    (fun mt e => e.evtype = XI_TouchBegin → find_touch mt (toUInt32 e.detail) = some none)
    (fun hist mt => Unique mt ∧ Tracked hist mt)
    (fun hist mt e mt1 hwf hI hq htr => tracking_step hist mt e mt1 hwf hI hq htr)
    evs [] init_registry init_registry_wf ⟨init_registry_unique, init_registry_tracked⟩
    (run_ok_of_unique_while_active evs _ h)
  simpa using this

theorem begun_step (hist : List (XIDeviceEvent F)) (mt : multitouch F)
    (e : XIDeviceEvent F) (mt1 : multitouch F) (hI : Begun hist mt)
    (htr : Transition mt e mt1) : Begun (hist ++ [e]) mt1 := by
  have hold : ∀ (j : Nat) (t : touchpoint F), mt.touches[j]? = some t → Active t →
      ∃ e1 ∈ hist ++ [e], e1.evtype = XI_TouchBegin ∧ toUInt32 e1.detail = t.touchid := by
    intro j t hj hact
    obtain ⟨e1, hmem, h1, h2⟩ := hI j t hj hact
    exact ⟨e1, List.mem_append_left _ hmem, h1, h2⟩
  cases htr with
  | dropped hb hfull => exact hold
  | allocated i t0 hb hi hfree =>
    intro j t hj hact
    rcases getElem?_set_cases _ _ _ _ _ hj with ⟨_, h2⟩ | ⟨_, h2⟩
    · subst h2
      exact ⟨e, by simp, hb, rfl⟩
    · exact hold j t h2 hact
  | missing hty hnone => exact hold
  | updated i t hu hi hact hid =>
    intro j tj hj hactj
    rcases getElem?_set_cases _ _ _ _ _ hj with ⟨_, h2⟩ | ⟨_, h2⟩
    · subst h2
      exact hold i t hi hact
    · exact hold j tj h2 hactj
  | ended i t he hi hact hid =>
    intro j tj hj hactj
    rcases getElem?_set_cases _ _ _ _ _ hj with ⟨_, h2⟩ | ⟨_, h2⟩
    · subst h2
      exact absurd rfl hactj
    · exact hold j tj h2 hactj
  | ignored hb hu he => exact hold

/-- From the initial registry every run returns and ends in a well-formed registry
whose Active slots all carry the identifier of a begin event of the run. -/
theorem begun_invariant [CDouble F] (evs : List (XIDeviceEvent F)) :
    ∃ mt out, paint_events (init_registry : multitouch F) evs = some (mt, out) ∧ WF mt ∧
      Begun evs mt := by
  have := paint_events_induct (fun _ _ => True) (fun hist mt => Begun hist mt)
    (fun hist mt e mt1 _ hI _ htr => begun_step hist mt e mt1 hI htr)
    evs [] init_registry init_registry_wf
    (fun j t hj hact => absurd hact (init_registry_free j t hj))
    (run_ok_trivial evs _)
  simpa using this

theorem active_count_le (mt : multitouch F) (h : WF mt) : active_count mt ≤ MAX_TOUCHES := by
  unfold active_count
  rw [← h.1]
  exact List.length_filter_le _ _

/-! ## Compositing -/

theorem over_solid (s d : Pixel) (h : s.a = 1) : over s d = s := by
  cases s with
  | mk r g b a =>
    simp only at h
    subst h
    simp [over]

/-- What expose does to the window context: the target becomes Overlay, weighted by
its own alpha, over Ink over the previous target; the source is the Ink pattern
again after cairo_restore. -/
theorem expose_run (ink overlay : Surface) (c : WinContext) (x1 y1 x2 y2 : F) :
    cairo_win_run ink overlay c (expose x1 y1 x2 y2) =
      some { target := fun i j =>
               over (masked (overlay i j).a (overlay i j)) (over (ink i j) (c.target i j)),
             source := fun i j => ink i j,
             saved := c.saved } := by
  simp only [expose, cairo_win_run, cairo_win_call, Int.sub_zero, Option.some.injEq]
  congr 1
  funext i j
  simp [mask_target, paint_target]

/-- On an opaque Ink expose returns, and the Front it leaves is Overlay, weighted
by its own alpha, drawn over Ink, whatever the window context held before. -/
theorem expose_on_solid_ink (ink overlay : Surface) (hop : Solid ink)
    (c1 c2 : WinContext) (x1 y1 x2 y2 : F) :
    ∃ r1 r2 r3, cairo_win_run ink overlay c1 (expose x1 y1 x2 y2) = some r1 ∧
      cairo_win_run ink overlay c2 (expose x1 y1 x2 y2) = some r2 ∧
      r1.target = (fun i j => over (masked (overlay i j).a (overlay i j)) (ink i j)) ∧
      r1.target = r2.target ∧
      cairo_win_run ink overlay r1 (expose x1 y1 x2 y2) = some r3 ∧
      r3.target = r1.target := by
  have key : ∀ c : WinContext,
      (fun i j => over (masked (overlay i j).a (overlay i j)) (over (ink i j) (c.target i j)))
        = (fun i j => over (masked (overlay i j).a (overlay i j)) (ink i j)) := by
    intro c
    funext i j
    rw [over_solid _ _ (hop i j)]
  refine ⟨_, _, _, expose_run ink overlay c1 x1 y1 x2 y2, expose_run ink overlay c2 x1 y1 x2 y2,
    key c1, ?_, expose_run ink overlay _ x1 y1 x2 y2, ?_⟩
  · exact (key c1).trans (key c2).symm
  · exact (key _).trans (key c1).symm

/-! ## The Ink surface stays opaque -/

theorem over_masked_alpha (m : ℚ) (s d : Pixel) (h : d.a = 1) :
    (over (masked m s) d).a = 1 := by
  simp only [over, masked, h]
  ring

theorem stroke_target_solid (raster : List (CairoOp F) → Int → Int → ℚ) (c : InkContext F)
    (h : Solid c.target) : Solid (stroke_target raster c) :=
  fun i j => over_masked_alpha _ _ _ (h i j)

theorem cairo_ink_run_append (raster : List (CairoOp F) → Int → Int → ℚ)
    (colour : F → F → F → F → Pixel) (l1 l2 : List (Effect F)) :
    ∀ c : InkContext F, cairo_ink_run raster colour c (l1 ++ l2) =
      (cairo_ink_run raster colour c l1).bind (fun c1 => cairo_ink_run raster colour c1 l2) := by
  induction l1 with
  | nil => intro c; rfl
  | cons e es ih =>
    intro c
    cases e with
    | cairo ctx op =>
      cases ctx with
      | cr =>
        simp only [List.cons_append, cairo_ink_run]
        cases hcall : cairo_ink_call raster colour c op with
        | none => rfl
        | some c1 => exact ih c1
      | cr_win => simp only [List.cons_append, cairo_ink_run]; exact ih c
      | cr_grabs => simp only [List.cons_append, cairo_ink_run]; exact ih c
    | stderr text => simp only [List.cons_append, cairo_ink_run]; exact ih c
    | printf text => simp only [List.cons_append, cairo_ink_run]; exact ih c
    | print_coordinates_column col id x y rx ry note =>
      simp only [List.cons_append, cairo_ink_run]; exact ih c
    | fflush => simp only [List.cons_append, cairo_ink_run]; exact ih c

/-- The calls of one accepted begin keep the Ink context running and Ink opaque. -/
theorem ink_begin_draw [CDouble F] (raster : List (CairoOp F) → Int → Int → ℚ)
    (colour : F → F → F → F → Pixel) (c : InkContext F) (x y : F) :
    ∃ c1, cairo_ink_run raster colour c (begin_draw x y) = some c1 ∧
      (Solid c.target → Solid c1.target) :=
  ⟨_, rfl, fun h => stroke_target_solid raster _ h⟩

/-- The calls of one accepted update keep the Ink context running and Ink opaque. -/
theorem ink_update_draw [CDouble F] (raster : List (CairoOp F) → Int → Int → ℚ)
    (colour : F → F → F → F → Pixel) (c : InkContext F) (x0 y0 x y : F) :
    ∃ c1, cairo_ink_run raster colour c (update_draw x0 y0 x y) = some c1 ∧
      (Solid c.target → Solid c1.target) :=
  ⟨_, rfl, fun h => stroke_target_solid raster _ h⟩

/-- The calls of one accepted end keep the Ink context running and Ink opaque. -/
theorem ink_end_draw [CDouble F] (raster : List (CairoOp F) → Int → Int → ℚ)
    (colour : F → F → F → F → Pixel) (c : InkContext F) (x y : F) :
    ∃ c1, cairo_ink_run raster colour c (end_draw x y) = some c1 ∧
      (Solid c.target → Solid c1.target) :=
  ⟨_, rfl, fun h => stroke_target_solid raster _ h⟩

/-- A diagnostic leaves the Ink context as it is. -/
theorem ink_error (raster : List (CairoOp F) → Int → Int → ℚ)
    (colour : F → F → F → F → Pixel) (c : InkContext F) (msg : String) :
    ∃ c1, cairo_ink_run raster colour c (error msg) = some c1 ∧
      (Solid c.target → Solid c1.target) :=
  ⟨c, rfl, fun h => h⟩

/-- One call of paint_event on a well-formed registry returns, keeps the registry
well-formed, and its cairo calls keep the Ink context running and Ink opaque. -/
theorem ink_after_event [CDouble F] (raster : List (CairoOp F) → Int → Int → ℚ)
    (colour : F → F → F → F → Pixel) (mt : multitouch F) (h : WF mt)
    (event : XIDeviceEvent F) (c : InkContext F) :
    ∃ mt1 out c1, paint_event mt event = some (mt1, out) ∧ WF mt1 ∧
      cairo_ink_run raster colour c out = some c1 ∧ (Solid c.target → Solid c1.target) := by
  unfold paint_event
  by_cases hb : event.evtype = XI_TouchBegin
  · simp only [hb, if_true]
    by_cases hfree : ∃ t ∈ mt.touches, t.state = TouchState.TSTATE_END
    · obtain ⟨i, t0, _, _, _, hrun⟩ := paint_touch_begin_alloc mt h hfree event
      obtain ⟨c1, h1, h2⟩ := ink_begin_draw raster colour c event.event_x event.event_y
      exact ⟨_, _, c1, hrun, wf_set mt h _ _, h1, h2⟩
    · have hfull : ∀ (j : Nat) (t : touchpoint F), mt.touches[j]? = some t → Active t := by
        intro j t hj hend
        exact hfree ⟨t, List.getElem?_mem hj, hend⟩
      obtain ⟨c1, h1, h2⟩ := ink_error raster colour c "Too many touchpoints, skipping\n"
      exact ⟨_, _, c1, paint_touch_begin_full mt h hfull event, h, h1, h2⟩
  · simp only [hb, if_false]
    by_cases hu : event.evtype = XI_TouchUpdate
    · simp only [hu, if_true]
      rcases find_touch_cases mt h (toUInt32 event.detail) with ⟨h1, _⟩ | ⟨i, t, h1, h2, _⟩
      · obtain ⟨c1, h3, h4⟩ := ink_error raster colour c
          "Could not find touch in paint_touch_update\n"
        exact ⟨_, _, c1, paint_touch_update_missing mt event h1, h, h3, h4⟩
      · obtain ⟨c1, h3, h4⟩ := ink_update_draw raster colour c t.x t.y
          event.event_x event.event_y
        exact ⟨_, _, c1, paint_touch_update_found mt event i t h1 h2, wf_set mt h _ _, h3, h4⟩
    · simp only [hu, if_false]
      by_cases he : event.evtype = XI_TouchEnd
      · simp only [he, if_true]
        rcases find_touch_cases mt h (toUInt32 event.detail) with ⟨h1, _⟩ | ⟨i, t, h1, h2, _⟩
        · obtain ⟨c1, h3, h4⟩ := ink_error raster colour c
            "Could not find touch in paint_touch_end\n"
          exact ⟨_, _, c1, paint_touch_end_missing mt event h1, h, h3, h4⟩
        · obtain ⟨c1, h3, h4⟩ := ink_end_draw raster colour c event.event_x event.event_y
          exact ⟨_, _, c1, paint_touch_end_found mt event i t h1 h2, wf_set mt h _ _, h3, h4⟩
      · simp only [he, if_false]
        exact ⟨mt, [], c, rfl, h, rfl, fun hs => hs⟩

/-- After any run of paint_event calls from a well-formed registry and an opaque
Ink, the run has returned, the Ink context has accepted every call made on it, and
Ink is opaque. -/
theorem ink_after_events [CDouble F] (raster : List (CairoOp F) → Int → Int → ℚ)
    (colour : F → F → F → F → Pixel) (evs : List (XIDeviceEvent F)) :
    ∀ (mt : multitouch F) (c : InkContext F), WF mt → Solid c.target →
      ∃ mt1 out c1, paint_events mt evs = some (mt1, out) ∧
        cairo_ink_run raster colour c out = some c1 ∧ Solid c1.target := by
  induction evs with
  | nil => intro mt c _ hs; exact ⟨mt, [], c, rfl, rfl, hs⟩
  | cons e es ih =>
    intro mt c hwf hs
    obtain ⟨mt1, out1, c1, h1, hwf1, hc1, hs1⟩ := ink_after_event raster colour mt hwf e c
    obtain ⟨mt2, out2, c2, h2, hc2, hs2⟩ := ih mt1 c1 hwf1 (hs1 hs)
    refine ⟨mt2, out1 ++ out2, c2, ?_, ?_, hs2⟩
    · simp [paint_events, h1, h2]
    · rw [cairo_ink_run_append, hc1]
      exact hc2

/-! ## The event printer -/

theorem toInt32_of_range (z : Int) (h1 : -2147483648 ≤ z) (h2 : z < 2147483648) :
    toInt32 z = z := by
  unfold toInt32
  omega

theorem print_events_append [CDouble F] (s : print_state) (l1 l2 : List (XIDeviceEvent F)) :
    (print_events s (l1 ++ l2)).1 = (print_events (print_events s l1).1 l2).1 := by
  induction l1 generalizing s with
  | nil => rfl
  | cons e es ih =>
    show (print_events (print_event s e).1 (es ++ l2)).1 = _
    rw [ih]
    rfl

theorem begin_count_cons (e : XIDeviceEvent F) (es : List (XIDeviceEvent F)) :
    begin_count (e :: es) = (if e.evtype = XI_TouchBegin then 1 else 0) + begin_count es := by
  unfold begin_count
  by_cases h : e.evtype = XI_TouchBegin
  · simp [h, List.filter_cons]; omega
  · simp [h, List.filter_cons]

theorem begin_count_append (l1 l2 : List (XIDeviceEvent F)) :
    begin_count (l1 ++ l2) = begin_count l1 + begin_count l2 := by
  simp [begin_count, List.filter_append]

/-- One call of print_event keeps the counter between 0 and the number of begin
events seen, as long as that number is below 2^31. -/
theorem print_event_bounds [CDouble F] (s : print_state) (e : XIDeviceEvent F) (k : Nat)
    (h0 : 0 ≤ s.active_touches) (hk : s.active_touches ≤ k)
    (hlim : k + (if e.evtype = XI_TouchBegin then 1 else 0) < 2147483648) :
    0 ≤ (print_event s e).1.active_touches ∧
      (print_event s e).1.active_touches ≤
        ((k + (if e.evtype = XI_TouchBegin then 1 else 0) : Nat) : Int) := by
  unfold print_event
  by_cases hb : e.evtype = XI_TouchBegin
  · simp only [hb, if_true] at hlim ⊢
    rw [toInt32_of_range _ (by omega) (by omega)]
    constructor <;> push_cast <;> omega
  · simp only [hb, if_false, Nat.add_zero] at hlim ⊢
    by_cases hu : e.evtype = XI_TouchUpdate
    · simp only [hu, if_true]
      exact ⟨h0, hk⟩
    · simp only [hu, if_false]
      by_cases he : e.evtype = XI_TouchEnd
      · simp only [he, if_true]
        rw [toInt32_of_range _ (by omega) (by omega)]
        by_cases hneg : s.active_touches - 1 < 0
        · simp only [hneg, if_true]
          constructor <;> omega
        · simp only [hneg, if_false]
          constructor <;> omega
      · simp only [he, if_false]
        exact ⟨h0, hk⟩

/-- Along a run of print_event calls the counter stays between 0 and the number of
begin events seen, as long as that number is below 2^31. -/
theorem print_events_bounds [CDouble F] (evs : List (XIDeviceEvent F)) :
    ∀ (s : print_state) (k : Nat), 0 ≤ s.active_touches → s.active_touches ≤ k →
      k + begin_count evs < 2147483648 →
      0 ≤ (print_events s evs).1.active_touches ∧
        (print_events s evs).1.active_touches ≤ ((k + begin_count evs : Nat) : Int) := by
  induction evs with
  | nil =>
    intro s k h0 hk _
    simp only [print_events, begin_count, List.filter_nil, List.length_nil, Nat.add_zero]
    exact ⟨h0, hk⟩
  | cons e es ih =>
    intro s k h0 hk hlim
    rw [begin_count_cons] at hlim ⊢
    obtain ⟨h1, h2⟩ := print_event_bounds s e k h0 hk (by omega)
    have := ih (print_event s e).1 _ h1 h2 (by omega)
    simp only [print_events]
    rw [Nat.add_assoc] at this
    exact this

/-- A run of n begin events raises the counter by n when that does not reach 2^31. -/
theorem print_events_begins [CDouble F] (b : XIDeviceEvent F) (hb : b.evtype = XI_TouchBegin) :
    ∀ (n : Nat) (s : print_state), 0 ≤ s.active_touches →
      s.active_touches + n < 2147483648 →
      (print_events s (List.replicate n b)).1.active_touches = s.active_touches + n := by
  intro n
  induction n with
  | zero => intro s _ _; simp [print_events]
  | succ n ih =>
    intro s h0 hlim
    rw [List.replicate_succ]
    simp only [print_events]
    have hstep : (print_event s b).1.active_touches = s.active_touches + 1 := by
      simp only [print_event, hb, if_true]
      exact toInt32_of_range _ (by omega) (by omega)
    rw [ih (print_event s b).1 (by omega) (by rw [hstep]; push_cast at hlim; omega), hstep]
    push_cast
    omega

/-! ## The registry against the contract of the spec -/

theorem spec_live_ids_snoc (hist : List (XIDeviceEvent F)) (e : XIDeviceEvent F) :
    spec_live_ids (hist ++ [e]) = spec_live_step (spec_live_ids hist) e := by
  simp [spec_live_ids, List.foldl_append]

theorem filter_length_set (p : touchpoint F → Bool) :
    ∀ (l : List (touchpoint F)) (i : Nat) (t0 a : touchpoint F), l[i]? = some t0 →
      ((l.set i a).filter p).length + (if p t0 = true then 1 else 0) =
        (l.filter p).length + (if p a = true then 1 else 0) := by
  intro l
  induction l with
  | nil => intro i t0 a h; simp at h
  | cons x xs ih =>
    intro i t0 a h
    cases i with
    | zero =>
      simp only [List.getElem?_cons_zero, Option.some.injEq] at h
      subst h
      simp only [List.set_cons_zero, List.filter_cons]
      by_cases hx : p x = true <;> by_cases ha : p a = true <;> simp [hx, ha]
    | succ k =>
      simp only [List.getElem?_cons_succ] at h
      have := ih k t0 a h
      simp only [List.set_cons_succ, List.filter_cons]
      by_cases hx : p x = true
      · simp only [hx, if_true, List.length_cons]
        omega
      · simp only [hx]
        exact this

theorem active_count_set (mt : multitouch F) (i : Nat) (t0 a : touchpoint F)
    (h : mt.touches[i]? = some t0) :
    active_count { mt with touches := mt.touches.set i a } + (if Active t0 then 1 else 0) =
      active_count mt + (if Active a then 1 else 0) := by
  have := filter_length_set (fun t => decide (Active t)) mt.touches i t0 a h
  simpa [active_count] using this

theorem active_count_full (mt : multitouch F) (h : WF mt)
    (hfull : ∀ (j : Nat) (t : touchpoint F), mt.touches[j]? = some t → Active t) :
    active_count mt = MAX_TOUCHES := by
  unfold active_count
  rw [← h.1]
  apply List.filter_length_eq_length.2
  intro t ht
  obtain ⟨n, hn⟩ := List.mem_iff_getElem?.1 ht
  simpa using hfull n t hn

theorem active_count_free (mt : multitouch F) (h : WF mt) (i : Nat) (t0 : touchpoint F)
    (hi : mt.touches[i]? = some t0) (hfree : ¬ Active t0) : active_count mt < MAX_TOUCHES := by
  have hle := active_count_le mt h
  rcases Nat.lt_or_ge (active_count mt) MAX_TOUCHES with hlt | hge
  · exact hlt
  · exfalso
    have heq : (mt.touches.filter (fun t => decide (Active t))).length = mt.touches.length := by
      have : active_count mt = MAX_TOUCHES := by omega
      rw [h.1]
      exact this
    have hall := List.filter_length_eq_length.1 heq t0 (List.getElem?_mem hi)
    exact hfree (by simpa using hall)

theorem begin_slot_active (e : XIDeviceEvent F) : Active (begin_slot e) := by
  simp [Active, begin_slot]

theorem update_slot_active (t : touchpoint F) (e : XIDeviceEvent F) : Active (update_slot t e) := by
  simp [Active, update_slot]

theorem end_slot_not_active (t : touchpoint F) (e : XIDeviceEvent F) : ¬ Active (end_slot t e) := by
  simp [Active, end_slot]

theorem getElem?_set_at (l : List (touchpoint F)) (i : Nat) (t a : touchpoint F)
    (h : l[i]? = some t) : (l.set i a)[i]? = some a := by
  obtain ⟨hlt, _⟩ := List.getElem?_eq_some.1 h
  exact List.getElem?_set_self hlt

/-- The correspondence between the Active slots and the live identifiers of the
spec contract is preserved by every transition, provided a begin event is only
delivered for an identifier that find_touch does not find. -/
theorem live_step (hist : List (XIDeviceEvent F)) (mt : multitouch F)
    (e : XIDeviceEvent F) (mt1 : multitouch F) (hwf : WF mt) (hU : Unique mt)
    (hL : Live hist mt)
    (hq : e.evtype = XI_TouchBegin → find_touch mt (toUInt32 e.detail) = some none)
    (htr : Transition mt e mt1) : Live (hist ++ [e]) mt1 := by
  obtain ⟨hmem, hnd, hcnt⟩ := hL
  have hbu : XI_TouchBegin ≠ XI_TouchUpdate := by decide
  have hbe : XI_TouchBegin ≠ XI_TouchEnd := by decide
  have hue : XI_TouchUpdate ≠ XI_TouchEnd := by decide
  unfold Live
  rw [spec_live_ids_snoc]
  cases htr with
  | dropped hb hfull =>
    have hlen : (spec_live_ids hist).length = MAX_TOUCHES := by
      rw [← hcnt]; exact active_count_full mt hwf hfull
    have hstep : spec_live_step (spec_live_ids hist) e = spec_live_ids hist := by
      simp [spec_live_step, hb, hlen]
    rw [hstep]
    exact ⟨hmem, hnd, hcnt⟩
  | allocated i t0 hb hi hfree =>
    have hnact : ¬ Active t0 := fun h => h hfree
    have hlen : (spec_live_ids hist).length < MAX_TOUCHES := by
      rw [← hcnt]; exact active_count_free mt hwf i t0 hi hnact
    have hstep : spec_live_step (spec_live_ids hist) e =
        spec_live_ids hist ++ [toUInt32 e.detail] := by
      simp [spec_live_step, hb, hlen]
    have hnone := find_touch_none mt hwf _ (hq hb)
    have hnotin : toUInt32 e.detail ∉ spec_live_ids hist := by
      intro hin
      obtain ⟨j, t, hj, hact, hid⟩ := (hmem _).2 hin
      exact hnone j t hj ⟨hact, hid⟩
    rw [hstep]
    refine ⟨?_, ?_, ?_⟩
    · intro touchid
      constructor
      · rintro ⟨j, t, hj, hact, hid⟩
        rcases getElem?_set_cases _ _ _ _ _ hj with ⟨_, h2⟩ | ⟨_, h2⟩
        · subst h2
          rw [← hid]
          exact List.mem_append_right _ (by simp [begin_slot])
        · exact List.mem_append_left _ ((hmem _).1 ⟨j, t, h2, hact, hid⟩)
      · intro hin
        rcases List.mem_append.1 hin with hold | hnew
        · obtain ⟨j, t, hj, hact, hid⟩ := (hmem _).2 hold
          have hji : j ≠ i := by
            intro h
            subst h
            rw [hi] at hj
            cases hj
            exact hnact hact
          exact ⟨j, t, by simpa [List.getElem?_set_ne (Ne.symm hji)] using hj, hact, hid⟩
        · have hid : touchid = toUInt32 e.detail := by simpa using hnew
          exact ⟨i, begin_slot e, getElem?_set_at _ _ _ _ hi, begin_slot_active e, by
            rw [hid]; rfl⟩
    · rw [List.nodup_append]
      refine ⟨hnd, List.nodup_singleton _, ?_⟩
      intro a ha hb1
      have : a = toUInt32 e.detail := by simpa using hb1
      subst this
      exact hnotin ha
    · have := active_count_set mt i t0 (begin_slot e) hi
      simp only [hnact, if_false, begin_slot_active e, if_true, Nat.add_zero] at this
      rw [this, hcnt]
      simp
  | missing hty hnone =>
    have hnotin : toUInt32 e.detail ∉ spec_live_ids hist := by
      intro hin
      obtain ⟨j, t, hj, hact, hid⟩ := (hmem _).2 hin
      exact hnone j t hj ⟨hact, hid⟩
    have hstep : spec_live_step (spec_live_ids hist) e = spec_live_ids hist := by
      rcases hty with hu | he
      · simp [spec_live_step, hu, hbu.symm, hue]
      · simp [spec_live_step, he, hbe.symm, List.erase_of_not_mem hnotin]
    rw [hstep]
    exact ⟨hmem, hnd, hcnt⟩
  | updated i t hu hi hact hid =>
    have hstep : spec_live_step (spec_live_ids hist) e = spec_live_ids hist := by
      simp [spec_live_step, hu, hbu.symm, hue]
    rw [hstep]
    refine ⟨?_, hnd, ?_⟩
    · intro touchid
      constructor
      · rintro ⟨j, tj, hj, hactj, hidj⟩
        rcases getElem?_set_cases _ _ _ _ _ hj with ⟨_, h2⟩ | ⟨_, h2⟩
        · subst h2
          exact (hmem _).1 ⟨i, t, hi, hact, hidj⟩
        · exact (hmem _).1 ⟨j, tj, h2, hactj, hidj⟩
      · intro hin
        obtain ⟨j, tj, hj, hactj, hidj⟩ := (hmem _).2 hin
        by_cases hji : j = i
        · subst hji
          rw [hi] at hj
          cases hj
          exact ⟨j, update_slot t e, getElem?_set_at _ _ _ _ hi, update_slot_active t e, hidj⟩
        · exact ⟨j, tj, by simpa [List.getElem?_set_ne (Ne.symm hji)] using hj, hactj, hidj⟩
    · have := active_count_set mt i t (update_slot t e) hi
      simp only [hact, update_slot_active t e, if_true] at this
      rw [← hcnt]
      omega
  | ended i t he hi hact hid =>
    have hstep : spec_live_step (spec_live_ids hist) e =
        (spec_live_ids hist).erase (toUInt32 e.detail) := by
      simp [spec_live_step, he, hbe.symm]
    have hin : toUInt32 e.detail ∈ spec_live_ids hist := (hmem _).1 ⟨i, t, hi, hact, hid⟩
    rw [hstep]
    refine ⟨?_, hnd.erase _, ?_⟩
    · intro touchid
      rw [hnd.mem_erase_iff]
      constructor
      · rintro ⟨j, tj, hj, hactj, hidj⟩
        rcases getElem?_set_cases _ _ _ _ _ hj with ⟨_, h2⟩ | ⟨hji, h2⟩
        · subst h2
          exact absurd hactj (end_slot_not_active t e)
        · refine ⟨?_, (hmem _).1 ⟨j, tj, h2, hactj, hidj⟩⟩
          intro heq
          exact hji (hU j i tj t h2 hi hactj hact (by rw [hidj, heq, hid]))
      · rintro ⟨hne, hin1⟩
        obtain ⟨j, tj, hj, hactj, hidj⟩ := (hmem _).2 hin1
        have hji : j ≠ i := by
          intro h
          subst h
          rw [hi] at hj
          cases hj
          exact hne (hidj.symm.trans hid)
        exact ⟨j, tj, by simpa [List.getElem?_set_ne (Ne.symm hji)] using hj, hactj, hidj⟩
    · have := active_count_set mt i t (end_slot t e) hi
      simp only [hact, end_slot_not_active t e, if_true, if_false, Nat.add_zero] at this
      have hpos : 0 < (spec_live_ids hist).length := List.length_pos_of_mem hin
      rw [List.length_erase_of_mem hin, ← hcnt]
      omega
  | ignored hb hu he =>
    have hstep : spec_live_step (spec_live_ids hist) e = spec_live_ids hist := by
      simp [spec_live_step, hb, he]
    rw [hstep]
    exact ⟨hmem, hnd, hcnt⟩

theorem init_registry_live [CDouble F] : Live [] (init_registry : multitouch F) := by
  refine ⟨?_, ?_, ?_⟩
  · intro touchid
    constructor
    · rintro ⟨j, t, hj, hact, _⟩
      exact absurd hact (init_registry_free j t hj)
    · intro h
      simp [spec_live_ids] at h
  · simp [spec_live_ids]
  · rfl

/-- From the initial registry a run with identifiers unique while active returns
and ends in a well-formed registry with unique Active identifiers, whose Active
slots carry exactly the live identifiers of the spec contract, each with the most
recent position reported for it. -/
theorem registry_invariant [CDouble F] (evs : List (XIDeviceEvent F))
    (h : unique_while_active (init_registry : multitouch F) evs = true) :
    ∃ mt out, paint_events (init_registry : multitouch F) evs = some (mt, out) ∧ WF mt ∧
      Unique mt ∧ Tracked evs mt ∧ Live evs mt := by
  have := paint_events_induct
    (fun mt e => e.evtype = XI_TouchBegin → find_touch mt (toUInt32 e.detail) = some none)
    (fun hist mt => (Unique mt ∧ Tracked hist mt) ∧ Live hist mt)
    (fun hist mt e mt1 hwf hI hq htr =>
      ⟨tracking_step hist mt e mt1 hwf hI.1 hq htr,
       live_step hist mt e mt1 hwf hI.1.1 hI.2 hq htr⟩)
    evs [] init_registry init_registry_wf
    ⟨⟨init_registry_unique, init_registry_tracked⟩, init_registry_live⟩
    (run_ok_of_unique_while_active evs _ h)
  obtain ⟨mt, out, hrun, hwf, hI⟩ := this
  simp only [List.nil_append] at hI
  exact ⟨mt, out, hrun, hwf, hI.1.1, hI.1.2, hI.2⟩


/-! ## Touch registry: uniqueness, capacity, lifecycle -/

/-- C1 (as stated, refuted): from the initial all-free registry the two events
begin(5, 100, 100), begin(5, 200, 200) lead to a registry in which slots 0 and 1
are both Active and both carry touchid 5. -/
theorem uniqueness_fails_on_repeated_begin :
    ∃ mt out, paint_events (init_registry : multitouch DExpr)
        [mkEvent XI_TouchBegin 5 (DExpr.ofInt 100) (DExpr.ofInt 100),
         mkEvent XI_TouchBegin 5 (DExpr.ofInt 200) (DExpr.ofInt 200)] = some (mt, out) ∧
      ¬ Unique mt := by
  refine ⟨_, _, rfl, ?_⟩
  intro hU
  have h01 := hU 0 1 _ _ rfl rfl (by decide) (by decide) rfl
  omega

/-- C1 (amended): in every registry reached from the initial all-free registry by
a finite sequence of events routed through paint_event in which no begin is
delivered for an identifier that find_touch finds at that moment, no two Active
slots carry the same touchid; the run always returns. -/
theorem uniqueness_of_active_ids [CDouble F] (evs : List (XIDeviceEvent F))
    (h : unique_while_active (init_registry : multitouch F) evs = true) :
    ∃ mt out, paint_events (init_registry : multitouch F) evs = some (mt, out) ∧ Unique mt := by
  obtain ⟨mt, out, hrun, _, hU, _⟩ := tracking_invariant evs h
  exact ⟨mt, out, hrun, hU⟩

/-- C1 (amended), applied to begin 5, update 5, begin 7, end 5, begin 5. -/
theorem uniqueness_of_active_ids_witness :
    unique_while_active (init_registry : multitouch DExpr)
        [mkEvent XI_TouchBegin 5 (DExpr.ofInt 100) (DExpr.ofInt 100),
         mkEvent XI_TouchUpdate 5 (DExpr.ofInt 120) (DExpr.ofInt 110),
         mkEvent XI_TouchBegin 7 (DExpr.ofInt 10) (DExpr.ofInt 20),
         mkEvent XI_TouchEnd 5 (DExpr.ofInt 130) (DExpr.ofInt 120),
         mkEvent XI_TouchBegin 5 (DExpr.ofInt 1) (DExpr.ofInt 2)] = true ∧
      ∃ mt out, paint_events (init_registry : multitouch DExpr)
        [mkEvent XI_TouchBegin 5 (DExpr.ofInt 100) (DExpr.ofInt 100),
         mkEvent XI_TouchUpdate 5 (DExpr.ofInt 120) (DExpr.ofInt 110),
         mkEvent XI_TouchBegin 7 (DExpr.ofInt 10) (DExpr.ofInt 20),
         mkEvent XI_TouchEnd 5 (DExpr.ofInt 130) (DExpr.ofInt 120),
         mkEvent XI_TouchBegin 5 (DExpr.ofInt 1) (DExpr.ofInt 2)] = some (mt, out) ∧
        Unique mt :=
  ⟨by decide, uniqueness_of_active_ids _ (by decide)⟩

/-- C2: on every registry of 10 slots that are all Active, paint_touch_begin takes
the branch that reports "Too many touchpoints, skipping": it returns the registry
unchanged and its only output is the two writes to stderr, no cairo call; and
every registry reachable from the initial one has at most 10 Active slots. -/
theorem capacity_full_begin_dropped [CDouble F] (mt : multitouch F) (event : XIDeviceEvent F)
    (hwf : WF mt) (hfull : ∀ t ∈ mt.touches, Active t) :
    paint_touch_begin mt event =
        some (mt, [Effect.stderr "E: ", Effect.stderr "Too many touchpoints, skipping\n"]) ∧
      ∀ evs : List (XIDeviceEvent F), ∃ mt1 out,
        paint_events (init_registry : multitouch F) evs = some (mt1, out) ∧
        mt1.touches.length = 10 ∧ active_count mt1 ≤ 10 := by
  constructor
  · exact paint_touch_begin_full mt hwf (fun j t hj => hfull t (List.getElem?_mem hj)) event
  · intro evs
    obtain ⟨mt1, out, hrun, hwf1, _⟩ := begun_invariant evs
    exact ⟨mt1, out, hrun, hwf1.1, active_count_le mt1 hwf1⟩

/-- C2, applied to the registry whose 10 slots are Active with identifiers 1 to 10. -/
theorem capacity_full_begin_dropped_witness :
    paint_touch_begin
        full_registry (mkEvent XI_TouchBegin 11 (DExpr.ofInt 1) (DExpr.ofInt 2)) =
      some (full_registry,
        [Effect.stderr "E: ", Effect.stderr "Too many touchpoints, skipping\n"]) ∧
      ∀ evs : List (XIDeviceEvent DExpr), ∃ mt1 out,
        paint_events (init_registry : multitouch DExpr) evs = some (mt1, out) ∧
        mt1.touches.length = 10 ∧ active_count mt1 ≤ 10 :=
  capacity_full_begin_dropped _ _ (by decide) (by decide)

/-- C3: after any sequence of events from the initial registry, for an event whose
identifier (event->detail as uint32_t, 0 included) is the identifier of no begin
event of the sequence, find_touch returns NULL, and both paint_touch_update and
paint_touch_end return the registry unchanged with the "Could not find touch"
message on stderr as their only output. -/
theorem unknown_id_is_noop [CDouble F] (evs : List (XIDeviceEvent F)) (event : XIDeviceEvent F)
    (hno : ∀ e ∈ evs, e.evtype = XI_TouchBegin → toUInt32 e.detail ≠ toUInt32 event.detail) :
    ∃ mt out, paint_events (init_registry : multitouch F) evs = some (mt, out) ∧
      find_touch mt (toUInt32 event.detail) = some none ∧
      paint_touch_update mt event =
        some (mt, [Effect.stderr "E: ",
                   Effect.stderr "Could not find touch in paint_touch_update\n"]) ∧
      paint_touch_end mt event =
        some (mt, [Effect.stderr "E: ",
                   Effect.stderr "Could not find touch in paint_touch_end\n"]) := by
  obtain ⟨mt, out, hrun, hwf, hbegun⟩ := begun_invariant evs
  have hfind : find_touch mt (toUInt32 event.detail) = some none := by
    rcases find_touch_cases mt hwf (toUInt32 event.detail) with ⟨h1, _⟩ | ⟨i, t, _, h2, h3, h4, _⟩
    · exact h1
    · obtain ⟨e, hmem, hb, hid⟩ := hbegun i t h2 h3
      exact absurd (hid.trans h4) (hno e hmem hb)
  exact ⟨mt, out, hrun, hfind, paint_touch_update_missing mt event hfind,
    paint_touch_end_missing mt event hfind⟩

/-- C3, applied to the events begin 5, end 5, begin 7 followed by an event for
identifier 0. -/
theorem unknown_id_is_noop_witness :
    ∃ mt out, paint_events (init_registry : multitouch DExpr)
        [mkEvent XI_TouchBegin 5 (DExpr.ofInt 100) (DExpr.ofInt 100),
         mkEvent XI_TouchEnd 5 (DExpr.ofInt 130) (DExpr.ofInt 120),
         mkEvent XI_TouchBegin 7 (DExpr.ofInt 10) (DExpr.ofInt 20)] = some (mt, out) ∧
      find_touch mt (toUInt32 (mkEvent XI_TouchEnd 0 (DExpr.ofInt 3) (DExpr.ofInt 4)).detail)
        = some none ∧
      paint_touch_update mt (mkEvent XI_TouchEnd 0 (DExpr.ofInt 3) (DExpr.ofInt 4)) =
        some (mt, [Effect.stderr "E: ",
                   Effect.stderr "Could not find touch in paint_touch_update\n"]) ∧
      paint_touch_end mt (mkEvent XI_TouchEnd 0 (DExpr.ofInt 3) (DExpr.ofInt 4)) =
        some (mt, [Effect.stderr "E: ",
                   Effect.stderr "Could not find touch in paint_touch_end\n"]) :=
  unknown_id_is_noop _ _ (by decide)

/-- C4: after any sequence of events from the initial registry in which identifiers
are unique while active, at most one Active slot carries each identifier; the
identifiers find_touch finds are exactly the live ones (begun while the table had
a free slot and not ended since, as the registry contract of the spec defines
them), as many as there are Active slots; and the slot find_touch returns for an
identifier holds the coordinates of the most recent begin or update event for
that identifier. -/
theorem registry_tracks_last_position [CDouble F] (evs : List (XIDeviceEvent F))
    (h : unique_while_active (init_registry : multitouch F) evs = true) :
    ∃ mt out, paint_events (init_registry : multitouch F) evs = some (mt, out) ∧
      Unique mt ∧
      (∀ (touchid i : Nat), find_touch mt touchid = some (some i) →
        ∃ t, mt.touches[i]? = some t ∧ last_position evs touchid = some (t.x, t.y)) ∧
      (∀ touchid : Nat, touchid ∈ spec_live_ids evs →
        ∃ i t, find_touch mt touchid = some (some i) ∧ mt.touches[i]? = some t ∧
          Active t ∧ t.touchid = touchid ∧ last_position evs touchid = some (t.x, t.y)) ∧
      (∀ touchid : Nat, touchid ∉ spec_live_ids evs → find_touch mt touchid = some none) ∧
      active_count mt = (spec_live_ids evs).length := by
  obtain ⟨mt, out, hrun, hwf, hU, hT, hmem, _, hcnt⟩ := registry_invariant evs h
  refine ⟨mt, out, hrun, hU, ?_, ?_, ?_, hcnt⟩
  · intro touchid i hfind
    obtain ⟨t, ht, hact, hid, _⟩ := find_touch_slot mt touchid i hfind
    exact ⟨t, ht, by rw [← hid]; exact hT i t ht hact⟩
  · intro touchid hlive
    obtain ⟨j, tj, hj, hactj, hidj⟩ := (hmem touchid).2 hlive
    rcases find_touch_cases mt hwf touchid with ⟨_, hnone⟩ | ⟨i, t, hfind, ht, hact, hid, _⟩
    · exact absurd ⟨hactj, hidj⟩ (hnone j tj hj)
    · exact ⟨i, t, hfind, ht, hact, hid, by rw [← hid]; exact hT i t ht hact⟩
  · intro touchid hdead
    rcases find_touch_cases mt hwf touchid with ⟨hnone, _⟩ | ⟨i, t, _, ht, hact, hid, _⟩
    · exact hnone
    · exact absurd ((hmem touchid).1 ⟨i, t, ht, hact, hid⟩) hdead

/-- C4, applied to begin 5, update 5, begin 7, end 5, update 7: identifier 7 is
live and found at (11, 21), identifier 5 is not found. -/
theorem registry_tracks_last_position_witness :
    unique_while_active (init_registry : multitouch DExpr) sample_run = true ∧
      spec_live_ids sample_run = [7] ∧
      last_position sample_run 7 = some (DExpr.ofInt 11, DExpr.ofInt 21) ∧
      ∃ mt out, paint_events (init_registry : multitouch DExpr) sample_run = some (mt, out) ∧
        Unique mt ∧
        (∀ (touchid i : Nat), find_touch mt touchid = some (some i) →
          ∃ t, mt.touches[i]? = some t ∧
            last_position sample_run touchid = some (t.x, t.y)) ∧
        (∀ touchid : Nat, touchid ∈ spec_live_ids sample_run →
          ∃ i t, find_touch mt touchid = some (some i) ∧ mt.touches[i]? = some t ∧
            Active t ∧ t.touchid = touchid ∧
            last_position sample_run touchid = some (t.x, t.y)) ∧
        (∀ touchid : Nat, touchid ∉ spec_live_ids sample_run →
          find_touch mt touchid = some none) ∧
        active_count mt = (spec_live_ids sample_run).length :=
  ⟨by decide, by decide, by decide, registry_tracks_last_position _ (by decide)⟩

/-! ## The three handlers: postconditions -/

/-- C5: on every registry with a free slot paint_touch_begin writes the lowest free
slot: afterwards that slot has state TSTATE_BEGIN, touchid event->detail and
position (event_x, event_y), all four fields being overwritten, and every other
slot is as before. In particular begin(5, 100, 100) on the initial registry leaves
exactly one Active slot, slot 0, with id 5 at (100, 100). -/
theorem begin_binds_lowest_free [CDouble F] (mt : multitouch F) (event : XIDeviceEvent F)
    (hwf : WF mt) (hfree : ∃ t ∈ mt.touches, t.state = TouchState.TSTATE_END) :
    (∃ i t0 mt1 out, mt.touches[i]? = some t0 ∧ t0.state = TouchState.TSTATE_END ∧
      (∀ (j : Nat) (t : touchpoint F), j < i → mt.touches[j]? = some t → Active t) ∧
      paint_touch_begin mt event = some (mt1, out) ∧
      mt1.touches[i]? = some { state := TouchState.TSTATE_BEGIN,
                               touchid := toUInt32 event.detail,
                               x := event.event_x, y := event.event_y } ∧
      (∀ j : Nat, j ≠ i → mt1.touches[j]? = mt.touches[j]?) ∧
      mt1.touches.length = mt.touches.length ∧ mt1.ntouches = mt.ntouches) ∧
    (∃ mt1 out, paint_touch_begin (init_registry : multitouch F)
        (mkEvent XI_TouchBegin 5 (CDouble.ofInt 100) (CDouble.ofInt 100)) = some (mt1, out) ∧
      mt1.touches = { state := TouchState.TSTATE_BEGIN, touchid := 5,
                      x := CDouble.ofInt 100, y := CDouble.ofInt 100 }
        :: List.replicate 9 { state := TouchState.TSTATE_END, touchid := 0,
                              x := CDouble.ofInt 0, y := CDouble.ofInt 0 } ∧
      active_count mt1 = 1) := by
  constructor
  · obtain ⟨i, t0, hi, hfree0, hlow, hrun⟩ := paint_touch_begin_alloc mt hwf hfree event
    have hlt : i < mt.touches.length := by
      obtain ⟨hlt, _⟩ := List.getElem?_eq_some.1 hi
      exact hlt
    refine ⟨i, t0, _, _, hi, hfree0, hlow, hrun, ?_, ?_, by simp, rfl⟩
    · simp [List.getElem?_set_self hlt, begin_slot]
    · intro j hj
      simp [List.getElem?_set_ne (Ne.symm hj)]
  · exact ⟨_, _, rfl, rfl, rfl⟩

/-- C5, applied to the registry holding identifier 5 in slot 0: begin(7, 10, 20)
takes slot 1. -/
theorem begin_binds_lowest_free_witness :
    (∃ i t0 mt1 out, one_touch_registry.touches[i]? = some t0 ∧
      t0.state = TouchState.TSTATE_END ∧
      (∀ (j : Nat) (t : touchpoint DExpr), j < i →
        one_touch_registry.touches[j]? = some t → Active t) ∧
      paint_touch_begin one_touch_registry
        (mkEvent XI_TouchBegin 7 (DExpr.ofInt 10) (DExpr.ofInt 20)) = some (mt1, out) ∧
      mt1.touches[i]? = some { state := TouchState.TSTATE_BEGIN,
                               touchid := toUInt32 (mkEvent XI_TouchBegin 7 (DExpr.ofInt 10)
                                 (DExpr.ofInt 20)).detail,
                               x := (mkEvent XI_TouchBegin 7 (DExpr.ofInt 10)
                                 (DExpr.ofInt 20)).event_x,
                               y := (mkEvent XI_TouchBegin 7 (DExpr.ofInt 10)
                                 (DExpr.ofInt 20)).event_y } ∧
      (∀ j : Nat, j ≠ i → mt1.touches[j]? = one_touch_registry.touches[j]?) ∧
      mt1.touches.length = one_touch_registry.touches.length ∧
      mt1.ntouches = one_touch_registry.ntouches) ∧
    (∃ mt1 out, paint_touch_begin (init_registry : multitouch DExpr)
        (mkEvent XI_TouchBegin 5 (CDouble.ofInt 100) (CDouble.ofInt 100)) = some (mt1, out) ∧
      mt1.touches = { state := TouchState.TSTATE_BEGIN, touchid := 5,
                      x := CDouble.ofInt 100, y := CDouble.ofInt 100 }
        :: List.replicate 9 { state := TouchState.TSTATE_END, touchid := 0,
                              x := CDouble.ofInt 0, y := CDouble.ofInt 0 } ∧
      active_count mt1 = 1) :=
  begin_binds_lowest_free one_touch_registry _ (by decide) (by decide)

/-- C6 (as stated, refuted): in the registry that holds identifier 5 in slot 0 in
state TSTATE_BEGIN, find_touch finds slot 0, and after update(5, 120, 110) the
state of that slot is TSTATE_UPDATE, not the state it had before the call. -/
theorem update_changes_state_field :
    find_touch one_touch_registry 5 = some (some 0) ∧
      one_touch_registry.touches[0]?.map (fun t => t.state) = some TouchState.TSTATE_BEGIN ∧
      ((paint_touch_update one_touch_registry
          (mkEvent XI_TouchUpdate 5 (DExpr.ofInt 120) (DExpr.ofInt 110))).bind
        (fun r => r.1.touches[0]?)).map (fun t => t.state) = some TouchState.TSTATE_UPDATE := by
  decide

/-- C6 (amended): when find_touch returns a slot for the identifier of the event,
paint_touch_update sets the position of that slot to (event_x, event_y) and its
state to TSTATE_UPDATE, so the slot stays Active; its touchid, every other slot
and ntouches are as before. -/
theorem update_moves_slot_and_marks_it_updated [CDouble F] (mt : multitouch F)
    (event : XIDeviceEvent F) (i : Nat)
    (hfind : find_touch mt (toUInt32 event.detail) = some (some i)) :
    ∃ t mt1 out, mt.touches[i]? = some t ∧ Active t ∧
      paint_touch_update mt event = some (mt1, out) ∧
      mt1.touches[i]? = some { state := TouchState.TSTATE_UPDATE, touchid := t.touchid,
                               x := event.event_x, y := event.event_y } ∧
      (∀ j : Nat, j ≠ i → mt1.touches[j]? = mt.touches[j]?) ∧
      mt1.touches.length = mt.touches.length ∧ mt1.ntouches = mt.ntouches := by
  obtain ⟨t, ht, hact, _, _⟩ := find_touch_slot mt _ i hfind
  have hlt : i < mt.touches.length := by
    obtain ⟨hlt, _⟩ := List.getElem?_eq_some.1 ht
    exact hlt
  refine ⟨t, _, _, ht, hact, paint_touch_update_found mt event i t hfind ht, ?_, ?_, by simp, rfl⟩
  · simp [List.getElem?_set_self hlt, update_slot]
  · intro j hj
    simp [List.getElem?_set_ne (Ne.symm hj)]

/-- C6 (amended), applied to update(5, 120, 110) on the registry holding
identifier 5 in slot 0. -/
theorem update_moves_slot_and_marks_it_updated_witness :
    ∃ t mt1 out, one_touch_registry.touches[0]? = some t ∧ Active t ∧
      paint_touch_update one_touch_registry
        (mkEvent XI_TouchUpdate 5 (DExpr.ofInt 120) (DExpr.ofInt 110)) = some (mt1, out) ∧
      mt1.touches[0]? = some { state := TouchState.TSTATE_UPDATE, touchid := t.touchid,
                               x := DExpr.ofInt 120, y := DExpr.ofInt 110 } ∧
      (∀ j : Nat, j ≠ 0 → mt1.touches[j]? = one_touch_registry.touches[j]?) ∧
      mt1.touches.length = one_touch_registry.touches.length ∧
      mt1.ntouches = one_touch_registry.ntouches :=
  update_moves_slot_and_marks_it_updated one_touch_registry
    (mkEvent XI_TouchUpdate 5 (DExpr.ofInt 120) (DExpr.ofInt 110)) 0 (by decide)

/-- C7: when find_touch returns a slot for the identifier of the event,
paint_touch_end sets the position of that slot to (event_x, event_y) and its state
to TSTATE_END and leaves its touchid, every other slot and ntouches as they were;
and a begin event delivered next, whatever its identifier, is not dropped: it is
allocated a slot at or below the released one and writes nothing to stderr. -/
theorem end_releases_slot [CDouble F] (mt : multitouch F) (event : XIDeviceEvent F) (i : Nat)
    (hwf : WF mt) (hfind : find_touch mt (toUInt32 event.detail) = some (some i)) :
    ∃ t mt1 out, mt.touches[i]? = some t ∧
      paint_touch_end mt event = some (mt1, out) ∧
      mt1.touches[i]? = some { state := TouchState.TSTATE_END, touchid := t.touchid,
                               x := event.event_x, y := event.event_y } ∧
      (∀ j : Nat, j ≠ i → mt1.touches[j]? = mt.touches[j]?) ∧
      mt1.touches.length = mt.touches.length ∧ mt1.ntouches = mt.ntouches ∧
      ∀ next : XIDeviceEvent F, ∃ k mt2 out2, k ≤ i ∧
        paint_touch_begin mt1 next = some (mt2, out2) ∧
        mt2.touches[k]? = some { state := TouchState.TSTATE_BEGIN,
                                 touchid := toUInt32 next.detail,
                                 x := next.event_x, y := next.event_y } ∧
        ∀ text, Effect.stderr text ∉ out2 := by
  obtain ⟨t, ht, _, _, _⟩ := find_touch_slot mt _ i hfind
  have hlt : i < mt.touches.length := by
    obtain ⟨hlt, _⟩ := List.getElem?_eq_some.1 ht
    exact hlt
  have hnew : (mt.touches.set i (end_slot t event))[i]? = some (end_slot t event) := by
    simp [List.getElem?_set_self hlt]
  refine ⟨t, _, _, ht, paint_touch_end_found mt event i t hfind ht, ?_, ?_, by simp, rfl, ?_⟩
  · simp [List.getElem?_set_self hlt, end_slot]
  · intro j hj
    simp [List.getElem?_set_ne (Ne.symm hj)]
  · intro next
    have hwf1 := wf_set mt hwf i (end_slot t event)
    obtain ⟨k, t0, hk, hk0, hlow, hrun⟩ := paint_touch_begin_alloc _ hwf1
      ⟨end_slot t event, List.getElem?_mem hnew, rfl⟩ next
    have hki : k ≤ i := by
      by_contra hcon
      exact hlow i (end_slot t event) (by omega) hnew rfl
    have hklt : k < (mt.touches.set i (end_slot t event)).length := by
      obtain ⟨hlt1, _⟩ := List.getElem?_eq_some.1 hk
      exact hlt1
    refine ⟨k, _, _, hki, hrun, ?_, ?_⟩
    · simp only [List.getElem?_set_self hklt, begin_slot]
    · intro text hmem
      simp [begin_draw, expose] at hmem

/-- C7, applied to end(5, 130, 120) on the registry holding identifier 5 in slot 0. -/
theorem end_releases_slot_witness :
    ∃ t mt1 out, one_touch_registry.touches[0]? = some t ∧
      paint_touch_end one_touch_registry
        (mkEvent XI_TouchEnd 5 (DExpr.ofInt 130) (DExpr.ofInt 120)) = some (mt1, out) ∧
      mt1.touches[0]? = some { state := TouchState.TSTATE_END, touchid := t.touchid,
                               x := DExpr.ofInt 130, y := DExpr.ofInt 120 } ∧
      (∀ j : Nat, j ≠ 0 → mt1.touches[j]? = one_touch_registry.touches[j]?) ∧
      mt1.touches.length = one_touch_registry.touches.length ∧
      mt1.ntouches = one_touch_registry.ntouches ∧
      ∀ next : XIDeviceEvent DExpr, ∃ k mt2 out2, k ≤ 0 ∧
        paint_touch_begin mt1 next = some (mt2, out2) ∧
        mt2.touches[k]? = some { state := TouchState.TSTATE_BEGIN,
                                 touchid := toUInt32 next.detail,
                                 x := next.event_x, y := next.event_y } ∧
        ∀ text, Effect.stderr text ∉ out2 :=
  end_releases_slot one_touch_registry
    (mkEvent XI_TouchEnd 5 (DExpr.ofInt 130) (DExpr.ofInt 120)) 0 (by decide) (by decide)

/-! ## Ink output -/

/-- C8: every accepted event makes exactly one cairo_stroke call, on the context cr
of the Ink surface, and no call at all on the Overlay context; the window context
receives only the calls of expose. The calls on cr are: for a begin, a full arc
(angles 0 to 2 * M_PI) of radius 30 centred at (event_x, event_y); for an update, a
move_to the position the found slot held before and a line_to (event_x, event_y);
for an end, a rectangle of size 30 by 30 with origin (event_x - 15, event_y - 15). -/
theorem ink_output [CDouble F] (mt : multitouch F) (event : XIDeviceEvent F)
    (hwf : WF mt) (hacc : Accepted mt event) :
    ∃ mt1 out, paint_event mt event = some (mt1, out) ∧
      stroke_contexts out = [Ctx.cr] ∧
      cairo_calls Ctx.cr_grabs out = [] ∧
      cairo_calls Ctx.cr_win out =
        [CairoOp.set_source_surface Surf.surface 0 0, CairoOp.paint, CairoOp.save,
         CairoOp.set_source_surface Surf.surface_grabs 0 0,
         CairoOp.mask_surface Surf.surface_grabs 0 0, CairoOp.restore] ∧
      (event.evtype = XI_TouchBegin →
        cairo_calls Ctx.cr out =
          [CairoOp.save,
           CairoOp.set_source_rgba (CDouble.ofInt 0) (CDouble.ofInt 0) (CDouble.ofInt 0)
             CDouble.point5,
           CairoOp.arc event.event_x event.event_y (CDouble.ofInt 30) (CDouble.ofInt 0)
             (CDouble.ofInt 2 * CDouble.M_PI),
           CairoOp.stroke, CairoOp.restore]) ∧
      (event.evtype = XI_TouchUpdate →
        ∃ i t, find_touch mt (toUInt32 event.detail) = some (some i) ∧
          mt.touches[i]? = some t ∧
          cairo_calls Ctx.cr out =
            [CairoOp.save,
             CairoOp.set_source_rgba (CDouble.ofInt 0) (CDouble.ofInt 0) (CDouble.ofInt 0)
               CDouble.point5,
             CairoOp.move_to t.x t.y,
             CairoOp.line_to event.event_x event.event_y,
             CairoOp.stroke, CairoOp.restore]) ∧
      (event.evtype = XI_TouchEnd →
        cairo_calls Ctx.cr out =
          [CairoOp.save,
           CairoOp.set_source_rgba (CDouble.ofInt 0) (CDouble.ofInt 0) (CDouble.ofInt 0)
             CDouble.point5,
           CairoOp.rectangle (event.event_x - CDouble.ofInt 15)
             (event.event_y - CDouble.ofInt 15) (CDouble.ofInt 30) (CDouble.ofInt 30),
           CairoOp.stroke, CairoOp.restore]) := by
  have hbu : XI_TouchBegin ≠ XI_TouchUpdate := by decide
  have hbe : XI_TouchBegin ≠ XI_TouchEnd := by decide
  have hue : XI_TouchUpdate ≠ XI_TouchEnd := by decide
  rcases hacc with ⟨hb, hfree⟩ | ⟨hu | he, i, hfind⟩
  · obtain ⟨i, t0, _, _, _, hrun⟩ := paint_touch_begin_alloc mt hwf hfree event
    have hpe : paint_event mt event = paint_touch_begin mt event := by
      simp only [paint_event, hb, if_true]
    rw [← hpe] at hrun
    refine ⟨_, _, hrun, ?_, ?_, ?_, ?_, ?_, ?_⟩
    · rfl
    · rfl
    · rfl
    · intro _; rfl
    · intro h; exact absurd (hb.symm.trans h) hbu
    · intro h; exact absurd (hb.symm.trans h) hbe
  · obtain ⟨t, ht, _, _, _⟩ := find_touch_slot mt _ i hfind
    have hrun := paint_touch_update_found mt event i t hfind ht
    have hpe : paint_event mt event = paint_touch_update mt event := by
      simp only [paint_event, hu, if_true, hbu.symm, if_false]
    rw [← hpe] at hrun
    refine ⟨_, _, hrun, ?_, ?_, ?_, ?_, ?_, ?_⟩
    · rfl
    · rfl
    · rfl
    · intro h; exact absurd (h.symm.trans hu) hbu
    · intro _; exact ⟨i, t, hfind, ht, rfl⟩
    · intro h; exact absurd (hu.symm.trans h) hue
  · obtain ⟨t, ht, _, _, _⟩ := find_touch_slot mt _ i hfind
    have hrun := paint_touch_end_found mt event i t hfind ht
    have hpe : paint_event mt event = paint_touch_end mt event := by
      simp only [paint_event, he, if_true, hbe.symm, hue.symm, if_false]
    rw [← hpe] at hrun
    refine ⟨_, _, hrun, ?_, ?_, ?_, ?_, ?_, ?_⟩
    · rfl
    · rfl
    · rfl
    · intro h; exact absurd (h.symm.trans he) hbe
    · intro h; exact absurd (h.symm.trans he) hue
    · intro _; rfl

/-- C8, applied to update(5, 120, 110) on the registry holding identifier 5 at
(100, 100) in slot 0: the stroked segment runs from (100, 100) to (120, 110). -/
theorem ink_output_witness :
    ∃ mt1 out, paint_event one_touch_registry
        (mkEvent XI_TouchUpdate 5 (DExpr.ofInt 120) (DExpr.ofInt 110)) = some (mt1, out) ∧
      stroke_contexts out = [Ctx.cr] ∧
      cairo_calls Ctx.cr out =
        [CairoOp.save,
         CairoOp.set_source_rgba (DExpr.ofInt 0) (DExpr.ofInt 0) (DExpr.ofInt 0) DExpr.point5,
         CairoOp.move_to (DExpr.ofInt 100) (DExpr.ofInt 100),
         CairoOp.line_to (DExpr.ofInt 120) (DExpr.ofInt 110),
         CairoOp.stroke, CairoOp.restore] := by
  obtain ⟨mt1, out, hrun, hs, _, _, _, hu, _⟩ := ink_output one_touch_registry
    (mkEvent XI_TouchUpdate 5 (DExpr.ofInt 120) (DExpr.ofInt 110)) (by decide)
    (Or.inr ⟨Or.inl rfl, 0, by decide⟩)
  obtain ⟨i, t, hfind, ht, hcalls⟩ := hu rfl
  have hi : i = 0 := by
    have h0 : find_touch one_touch_registry
        (toUInt32 (mkEvent XI_TouchUpdate 5 (DExpr.ofInt 120) (DExpr.ofInt 110)).detail)
        = some (some 0) := by decide
    rw [h0] at hfind
    cases hfind
    rfl
  subst hi
  have ht0 : t = begin_slot (mkEvent XI_TouchBegin 5 (DExpr.ofInt 100) (DExpr.ofInt 100)) := by
    have h1 : one_touch_registry.touches[0]? =
        some (begin_slot (mkEvent XI_TouchBegin 5 (DExpr.ofInt 100) (DExpr.ofInt 100))) := rfl
    rw [h1] at ht
    cases ht
    rfl
  subst ht0
  exact ⟨mt1, out, hrun, hs, hcalls⟩

/-! ## Compositor -/

/-- C9: for the Ink content after any sequence of events from the initial registry
(the grey fill of init_cairo followed by the strokes of the handlers, whatever
pixels the rasteriser covers), for every Overlay content and any two prior states
of the window context, expose returns and leaves the same Front, namely Overlay
weighted by its own alpha drawn over Ink; and a second expose right after the
first leaves the Front as the first left it. -/
theorem expose_front_from_ink_and_overlay [CDouble F] (evs : List (XIDeviceEvent F))
    (raster : List (CairoOp F) → Int → Int → ℚ) (colour : F → F → F → F → Pixel)
    (overlay : Surface) (c1 c2 : WinContext) (x1 y1 x2 y2 : F) :
    ∃ mt out ink, paint_events (init_registry : multitouch F) evs = some (mt, out) ∧
      cairo_ink_run raster colour init_ink out = some ink ∧
      ∃ r1 r2 r3, cairo_win_run ink.target overlay c1 (expose x1 y1 x2 y2) = some r1 ∧
        cairo_win_run ink.target overlay c2 (expose x1 y1 x2 y2) = some r2 ∧
        r1.target = (fun i j => over (masked (overlay i j).a (overlay i j)) (ink.target i j)) ∧
        r1.target = r2.target ∧
        cairo_win_run ink.target overlay r1 (expose x1 y1 x2 y2) = some r3 ∧
        r3.target = r1.target := by
  obtain ⟨mt, out, ink, hrun, hink, hsolid⟩ :=
    ink_after_events raster colour evs init_registry init_ink init_registry_wf
      (fun _ _ => rfl)
  exact ⟨mt, out, ink, hrun, hink, expose_on_solid_ink ink.target overlay hsolid c1 c2 x1 y1 x2 y2⟩

/-! ## The event printer -/

/-- C10 (as stated, refuted): starting from active_touches = 0 and minTouchID = 0,
after 2^31 TouchBegin events with no TouchEnd the 32 bit counter has wrapped
around and active_touches is -2^31, which is negative. -/
theorem active_touches_negative_after_overflow :
    (print_events print_init
      (List.replicate 2147483648
        (mkEvent XI_TouchBegin 1 (DExpr.ofInt 0) (DExpr.ofInt 0)))).1.active_touches
      = -2147483648 := by
  have hsplit : (2147483648 : Nat) = 2147483647 + 1 := rfl
  rw [hsplit, List.replicate_succ', print_events_append]
  have hrun := print_events_begins (mkEvent XI_TouchBegin 1 (DExpr.ofInt 0) (DExpr.ofInt 0)) rfl
    2147483647 print_init (le_refl _) (by decide)
  have hlast : ∀ s : print_state, s.active_touches = 2147483647 →
      (print_events s [mkEvent XI_TouchBegin 1 (DExpr.ofInt 0)
        (DExpr.ofInt 0)]).1.active_touches = -2147483648 := by
    intro s hs
    simp only [print_events, print_event, mkEvent, if_true, hs]
    decide
  exact hlast _ (by rw [hrun]; rfl)

/-- C10 (amended): for every sequence of events with fewer than 2^31 TouchBegin
events, passed to print_event starting from active_touches = 0 and minTouchID = 0,
active_touches is at least 0 after each event. In every state, a TouchEnd arriving
while active_touches is 0 prints the "received more TouchEnd than TouchBegin"
error and leaves the counter at 0; and whenever the counter is 0 after a TouchEnd,
minTouchID is 0. -/
theorem active_touches_clamped [CDouble F] (evs : List (XIDeviceEvent F))
    (hcount : begin_count evs < 2147483648) :
    (∀ pre suf : List (XIDeviceEvent F), evs = pre ++ suf →
      0 ≤ (print_events print_init pre).1.active_touches) ∧
    (∀ (s : print_state) (e : XIDeviceEvent F), e.evtype = XI_TouchEnd →
      s.active_touches = 0 →
      print_event s e =
        ({ minTouchID := 0, active_touches := 0 },
         [print_column s.minTouchID e "end",
          Effect.printf "ERROR: received more TouchEnd than TouchBegin",
          Effect.fflush])) ∧
    (∀ (s : print_state) (e : XIDeviceEvent F), e.evtype = XI_TouchEnd →
      (print_event s e).1.active_touches = 0 → (print_event s e).1.minTouchID = 0) := by
  have hbe : XI_TouchEnd ≠ XI_TouchBegin := by decide
  have hue : XI_TouchEnd ≠ XI_TouchUpdate := by decide
  refine ⟨?_, ?_, ?_⟩
  · intro pre suf hsplit
    have hpre : begin_count pre < 2147483648 := by
      rw [hsplit, begin_count_append] at hcount
      omega
    exact (print_events_bounds pre print_init 0 (le_refl _) (le_refl _) (by omega)).1
  · intro s e he hs
    simp only [print_event, he, hbe, hue, if_false, if_true, hs]
    have h1 : toInt32 (-1) = -1 := by decide
    simp [h1]
  · intro s e he h0
    simp only [print_event, he, hbe, hue, if_false, if_true] at h0 ⊢
    simp only [h0, if_true]

/-- C10 (amended), applied to the events end 5, begin 5, begin 6, end 5, end 6,
end 6. -/
theorem active_touches_clamped_witness :
    (∀ pre suf : List (XIDeviceEvent DExpr),
      [mkEvent XI_TouchEnd 5 (DExpr.ofInt 1) (DExpr.ofInt 2),
       mkEvent XI_TouchBegin 5 (DExpr.ofInt 1) (DExpr.ofInt 2),
       mkEvent XI_TouchBegin 6 (DExpr.ofInt 3) (DExpr.ofInt 4),
       mkEvent XI_TouchEnd 5 (DExpr.ofInt 1) (DExpr.ofInt 2),
       mkEvent XI_TouchEnd 6 (DExpr.ofInt 3) (DExpr.ofInt 4),
       mkEvent XI_TouchEnd 6 (DExpr.ofInt 3) (DExpr.ofInt 4)] = pre ++ suf →
      0 ≤ (print_events print_init pre).1.active_touches) ∧
    (∀ (s : print_state) (e : XIDeviceEvent DExpr), e.evtype = XI_TouchEnd →
      s.active_touches = 0 →
      print_event s e =
        ({ minTouchID := 0, active_touches := 0 },
         [print_column s.minTouchID e "end",
          Effect.printf "ERROR: received more TouchEnd than TouchBegin",
          Effect.fflush])) ∧
    (∀ (s : print_state) (e : XIDeviceEvent DExpr), e.evtype = XI_TouchEnd →
      (print_event s e).1.active_touches = 0 → (print_event s e).1.minTouchID = 0) :=
  active_touches_clamped _ (by decide)

end Multitouch
